/-
Verification of the solar-position / prayer-time pipeline of the Solaris
repository.

The two source files (src/utils/salahUtils.ts, the normalized-angle
implementation, and src/unnamed/part_000, the naive modulo-based
implementation) are shallowly embedded over the real numbers:

* a JavaScript `number` that carries a finite value is modelled as a real;
* the JavaScript value `NaN` is modelled by `none` in `Option ℝ`; the only
  NaN sources in this code are `Math.acos` applied outside [-1, 1] and
  division by a zero denominator inside the `acos` argument (in JavaScript
  the latter yields `±Infinity` or `NaN`, and `Math.acos` of either is
  `NaN`), so `Math.acos`-shaped subterms are the points where `Option`
  enters;
* the JavaScript remainder operator `%` (sign of the dividend, truncation
  toward zero) is modelled by `jsRem`;
* `Math.atan2 y x` is modelled by `Complex.arg ⟨x, y⟩`, which has the same
  range (-π, π] and the same values on every input with no signed zeros;
* `Math.sin`, `Math.cos`, `Math.asin`, `Math.atan` are the corresponding
  total real functions.  (`Real.tan` takes the junk value 0 at odd
  multiples of π / 2 where JavaScript returns a huge finite float; no
  statement below evaluates at such a point.)

The external utility collaborators `toRadians`, `toDegrees`,
`getJulianDate` and the host date parsing are not part of the repository
sources; they are modelled from the spec where needed.
-/
import Mathlib

open scoped Classical

noncomputable section

/-- Truncation toward zero, the rounding used by the JavaScript `%`
operator. -/
def jsTrunc (x : ℝ) : ℤ := if 0 ≤ x then ⌊x⌋ else -⌊-x⌋

/-- The JavaScript remainder operator `x % y`: the result has the sign of
the dividend and satisfies `x % y = x - y * trunc (x / y)`. -/
def jsRem (x y : ℝ) : ℝ := x - y * jsTrunc (x / y)

/-- JavaScript `Math.acos`: the principal arc cosine on [-1, 1], and `NaN`
(modelled `none`) outside. -/
def mathAcos (x : ℝ) : Option ℝ :=
  if -1 ≤ x ∧ x ≤ 1 then some (Real.arccos x) else none

/-- JavaScript `Math.atan2 y x`: the angle of the point (x, y), in
(-π, π]. -/
def mathAtan2 (y x : ℝ) : ℝ := Complex.arg ⟨x, y⟩

/-- Modelled from the spec: the external utility `toRadians(degrees)`, a
standard linear conversion (src/utils/utility is not part of the provided
sources). -/
def toRadians (deg : ℝ) : ℝ := deg * Real.pi / 180

/-- Modelled from the spec: the external utility `toDegrees(radians)`, a
standard linear conversion (src/utils/utility is not part of the provided
sources). -/
def toDegrees (rad : ℝ) : ℝ := rad * 180 / Real.pi

/-- The record returned by `calculatePrayerTimes`; each value is a
JavaScript number, i.e. a real or `NaN` (`none`). -/
structure PrayerTimes where
  Fajr : Option ℝ
  Shuruq : Option ℝ
  Dhuhr : Option ℝ
  Asr : Option ℝ
  Sunset : Option ℝ
  Maghrib : Option ℝ
  Isha : Option ℝ

/-! ## The normalized-angle implementation (src/utils/salahUtils.ts) -/

namespace SalahUtils

/-- `normalizeAngle` from salahUtils.ts: `((deg % 360) + 360) % 360`,
returns a value in [0, 360). -/
def normalizeAngle (deg : ℝ) : ℝ := jsRem (jsRem deg 360 + 360) 360

/-- `D = julianDate - 2451545.0`, days since J2000.0. -/
def daysJ2000 (julianDate : ℝ) : ℝ := julianDate - 2451545.0

/-- Mean anomaly in degrees, normalized: `gDeg`. -/
def gDeg (julianDate : ℝ) : ℝ :=
  normalizeAngle (357.529 + 0.98560028 * daysJ2000 julianDate)

/-- Mean longitude in degrees, normalized: `qDeg`. -/
def qDeg (julianDate : ℝ) : ℝ :=
  normalizeAngle (280.459 + 0.98564736 * daysJ2000 julianDate)

/-- Ecliptic longitude in degrees, normalized: `LDeg`. -/
def LDeg (julianDate : ℝ) : ℝ :=
  normalizeAngle (qDeg julianDate
    + 1.915 * Real.sin (toRadians (gDeg julianDate))
    + 0.02 * Real.sin (2 * toRadians (gDeg julianDate)))

/-- Obliquity of the ecliptic in radians: `epsilon`. -/
def epsilon (julianDate : ℝ) : ℝ :=
  toRadians (23.439 - 0.00000036 * daysJ2000 julianDate)

/-- Right ascension in degrees before normalization (`Math.atan2` output
converted to degrees): the mutable `RAdeg` just after its
initialization. -/
def RAdegRaw (julianDate : ℝ) : ℝ :=
  toDegrees (mathAtan2
    (Real.cos (epsilon julianDate) * Real.sin (toRadians (LDeg julianDate)))
    (Real.cos (toRadians (LDeg julianDate))))

/-- Right ascension in degrees, normalized to [0, 360). -/
def RAdeg (julianDate : ℝ) : ℝ := normalizeAngle (RAdegRaw julianDate)

/-- Right ascension in hours: `RAhrs = RAdeg / 15`. -/
def RAhrs (julianDate : ℝ) : ℝ := RAdeg julianDate / 15

/-- Declination in radians. -/
def declination (julianDate : ℝ) : ℝ :=
  Real.arcsin (Real.sin (epsilon julianDate)
    * Real.sin (toRadians (LDeg julianDate)))

/-- The equation of time before the two range-folding conditionals:
`qDeg / 15 - RAhrs`. -/
def eotRaw (julianDate : ℝ) : ℝ := qDeg julianDate / 15 - RAhrs julianDate

/-- The equation of time in hours after the two sequential conditionals
`if (eot > 12) eot -= 24; if (eot < -12) eot += 24;`. -/
def equationOfTime (julianDate : ℝ) : ℝ :=
  let e0 := eotRaw julianDate
  let e1 := if 12 < e0 then e0 - 24 else e0
  if e1 < -12 then e1 + 24 else e1

/-- The record returned by `calculateSolarParameters`. -/
structure SolarParams where
  declination : ℝ
  equationOfTime : ℝ

/-- `calculateSolarParameters` from salahUtils.ts. -/
def calculateSolarParameters (julianDate : ℝ) : SolarParams :=
  { declination := declination julianDate
    equationOfTime := equationOfTime julianDate }

/-- `calculateHourAngle` from salahUtils.ts:
`acos((sin(angle°) - sin(lat°) sin(decl)) / (cos(lat°) cos(decl)))`.
A zero denominator yields `±Infinity` or `NaN` in JavaScript, and
`Math.acos` of either is `NaN`; hence the explicit `none` branch. -/
def calculateHourAngle (latitude declination angle : ℝ) : Option ℝ :=
  let latitudeRad := toRadians latitude
  let den := Real.cos latitudeRad * Real.cos declination
  if den = 0 then none
  else
    mathAcos ((Real.sin (toRadians angle)
      - Real.sin latitudeRad * Real.sin declination) / den)

/-- The body of `calculatePrayerTimes` from salahUtils.ts after the
Julian date of the parsed date has been obtained. -/
def calculatePrayerTimesJD (latitude longitude julianDate : ℝ) :
    PrayerTimes :=
  let sp := calculateSolarParameters julianDate
  let declination := sp.declination
  let equationOfTime := sp.equationOfTime
  let noon := jsRem (12 - equationOfTime - longitude / 15 + 24) 24
  let fajrAngle : ℝ := 15
  let ishaAngle : ℝ := 15
  let shuruqAngle : ℝ := -0.833
  let fajrHA := calculateHourAngle latitude declination (-fajrAngle)
  let ishaHA := calculateHourAngle latitude declination (-ishaAngle)
  let shuruqHA := calculateHourAngle latitude declination shuruqAngle
  let fajr := fajrHA.map (fun h => jsRem (noon - toDegrees h / 15 + 24) 24)
  let sunrise :=
    shuruqHA.map (fun h => jsRem (noon - toDegrees h / 15 + 24) 24)
  let sunset :=
    shuruqHA.map (fun h => jsRem (noon + toDegrees h / 15 + 24) 24)
  let isha := ishaHA.map (fun h => jsRem (noon + toDegrees h / 15 + 24) 24)
  let maghribOffset : ℝ := 3 / 60
  let maghrib := sunset.map (fun s => jsRem (s + maghribOffset + 24) 24)
  let phi := toRadians latitude
  let delta := declination
  let hAsr := Real.arctan (1 / (2 + Real.tan |phi - delta|))
  let asrHA :=
    if Real.cos phi * Real.cos delta = 0 then none
    else
      mathAcos ((Real.sin hAsr - Real.sin phi * Real.sin delta)
        / (Real.cos phi * Real.cos delta))
  let asr := asrHA.map (fun h => jsRem (noon + toDegrees h / 15 + 24) 24)
  { Fajr := fajr, Shuruq := sunrise, Dhuhr := some noon, Asr := asr,
    Sunset := sunset, Maghrib := maghrib, Isha := isha }

end SalahUtils

/-! ## The naive modulo-based implementation (src/unnamed/part_000) -/

namespace Naive

/-- Mean anomaly in radians: `g = toRadians((357.529 + 0.98560028 D) % 360)`. -/
def g (julianDate : ℝ) : ℝ :=
  toRadians (jsRem (357.529 + 0.98560028 * (julianDate - 2451545.0)) 360)

/-- Mean longitude in degrees: `q = (280.459 + 0.98564736 D) % 360`. -/
def q (julianDate : ℝ) : ℝ :=
  jsRem (280.459 + 0.98564736 * (julianDate - 2451545.0)) 360

/-- Ecliptic longitude in degrees:
`L = (q + 1.915 sin g + 0.02 sin 2g) % 360`. -/
def L (julianDate : ℝ) : ℝ :=
  jsRem (q julianDate + 1.915 * Real.sin (g julianDate)
    + 0.02 * Real.sin (2 * g julianDate)) 360

/-- Obliquity of the ecliptic in radians. -/
def epsilon (julianDate : ℝ) : ℝ :=
  toRadians (23.439 - 0.00000036 * (julianDate - 2451545.0))

/-- Right ascension in hours, not normalized:
`RA = toDegrees(atan2(cos ε sin L, cos L)) / 15`, in (-12, 12]. -/
def RA (julianDate : ℝ) : ℝ :=
  toDegrees (mathAtan2
    (Real.cos (epsilon julianDate) * Real.sin (toRadians (L julianDate)))
    (Real.cos (toRadians (L julianDate)))) / 15

/-- Declination in radians. -/
def declination (julianDate : ℝ) : ℝ :=
  Real.arcsin (Real.sin (epsilon julianDate)
    * Real.sin (toRadians (L julianDate)))

/-- The naive equation of time: `(q / 15 - RA + 24) % 24`. -/
def equationOfTime (julianDate : ℝ) : ℝ :=
  jsRem (q julianDate / 15 - RA julianDate + 24) 24

/-- `calculateSolarParameters` from part_000. -/
def calculateSolarParameters (julianDate : ℝ) : SalahUtils.SolarParams :=
  { declination := declination julianDate
    equationOfTime := equationOfTime julianDate }

end Naive

/-! ## The date-string layer of `calculatePrayerTimes` -/

/-- Modelled from the spec: host parsing of the `"YYYY-MM-DD"` date string
by `new Date(date)` (the `Date` constructor is an external collaborator;
a malformed string parses to an Invalid Date whose time value is `NaN`,
modelled `none`). -/
def jsNewDate (s : String) : Option (ℤ × ℤ × ℤ) :=
  match s.toList with
  | [y1, y2, y3, y4, '-', m1, m2, '-', d1, d2] =>
    if (y1.isDigit && y2.isDigit && y3.isDigit && y4.isDigit &&
        m1.isDigit && m2.isDigit && d1.isDigit && d2.isDigit) then
      let y : ℤ := 1000 * (y1.toNat - 48) + 100 * (y2.toNat - 48)
        + 10 * (y3.toNat - 48) + (y4.toNat - 48)
      let m : ℤ := 10 * (m1.toNat - 48) + (m2.toNat - 48)
      let d : ℤ := 10 * (d1.toNat - 48) + (d2.toNat - 48)
      if 1 ≤ m ∧ m ≤ 12 ∧ 1 ≤ d ∧ d ≤ 31 then some (y, m, d) else none
    else none
  | _ => none

/-- Modelled from the spec: the external utility `getJulianDate`, the
Julian Day Number of the proleptic Gregorian civil date, anchored to local
noon (integer value at noon), via the standard civil-to-JDN formula. -/
def getJulianDate (ymd : ℤ × ℤ × ℤ) : ℝ :=
  let y := ymd.1
  let m := ymd.2.1
  let d := ymd.2.2
  let a := (14 - m) / 12
  let y2 := y + 4800 - a
  let m2 := m + 12 * a - 3
  ((d + (153 * m2 + 2) / 5 + 365 * y2 + y2 / 4 - y2 / 100 + y2 / 400
    - 32045 : ℤ) : ℝ)

/-- The exported entry point `calculatePrayerTimes(latitude, longitude, date)`.  When
the date string is malformed, `new Date` yields an Invalid Date, its
`getJulianDate` is `NaN`, and every arithmetic result downstream is `NaN`:
the returned record then has `NaN` (`none`) in all seven fields. -/
def calculatePrayerTimes (latitude longitude : ℝ) (date : String) :
    PrayerTimes :=
  match jsNewDate date with
  | none => ⟨none, none, none, none, none, none, none⟩
  | some ymd =>
    SalahUtils.calculatePrayerTimesJD latitude longitude (getJulianDate ymd)

/-- A concrete Julian Date, about 1.08 million years after J2000, at which
the raw mean longitude `280.459 + 0.98564736 (jd - 2451545)` equals
exactly `360 * 1075298 + 80` degrees and the obliquity polynomial value
lies in (-258, -102) degrees, so that its cosine is negative. -/
def jdA : ℝ := 1217260744994285 / 3080148

/-- A concrete Julian Date about 20.29 days after `jdA` (its proleptic
Gregorian date is July 31 of year 1077296, far from a year boundary), at
which the raw mean longitude equals exactly `360 * 1075298 + 100` degrees
and the obliquity cosine is still negative. -/
def jdB : ℝ := 405753602498095 / 1026716

/-- The spec's `frac24(x) = ((x % 24) + 24) % 24` reduction into
[0, 24). -/
def frac24 (x : ℝ) : ℝ := jsRem (jsRem x 24 + 24) 24

/-! ## Arithmetic facts about the JavaScript remainder -/

theorem jsTrunc_intCast (k : ℤ) : jsTrunc (k : ℝ) = k := by
  unfold jsTrunc
  split
  · simp
  · rw [← Int.cast_neg, Int.floor_intCast]; ring

theorem jsTrunc_eq_zero {x : ℝ} (h1 : -1 < x) (h2 : x < 1) :
    jsTrunc x = 0 := by
  unfold jsTrunc
  split
  · exact Int.floor_eq_zero_iff.2 ⟨by assumption, h2⟩
  · have : ⌊-x⌋ = 0 := Int.floor_eq_zero_iff.2 ⟨by linarith, by linarith⟩
    simp [this]

theorem jsTrunc_eq_floor {x : ℝ} (h : 0 ≤ x) : jsTrunc x = ⌊x⌋ := by
  unfold jsTrunc
  simp [h]

theorem jsRem_eq_sub (x y : ℝ) : ∃ k : ℤ, jsRem x y = x - y * k :=
  ⟨jsTrunc (x / y), rfl⟩

theorem jsRem_of_nonneg {x y : ℝ} (n : ℤ) (hy : 0 < y) (hx : 0 ≤ x)
    (h1 : n * y ≤ x) (h2 : x < (n + 1) * y) : jsRem x y = x - y * n := by
  have hfl : ⌊x / y⌋ = n := by
    rw [Int.floor_eq_iff]
    constructor
    · rw [le_div_iff hy]; linarith [h1]
    · rw [div_lt_iff hy]; push_cast; linarith [h2]
  unfold jsRem
  rw [jsTrunc_eq_floor (div_nonneg hx hy.le), hfl]

theorem jsRem_self_of_neg {x y : ℝ} (hy : 0 < y) (h1 : -y < x)
    (h2 : x < 0) : jsRem x y = x := by
  have : jsTrunc (x / y) = 0 := by
    apply jsTrunc_eq_zero
    · rw [neg_lt, ← neg_div, div_lt_one hy]; linarith
    · calc x / y < 0 := div_neg_of_neg_of_pos h2 hy
        _ < 1 := one_pos
  unfold jsRem
  rw [this]
  push_cast
  ring

theorem jsRem_self_of_nonneg {x y : ℝ} (hy : 0 < y) (h1 : 0 ≤ x)
    (h2 : x < y) : jsRem x y = x := by
  have := jsRem_of_nonneg 0 hy h1 (by simpa) (by simpa)
  simpa using this

theorem jsRem_mem_of_nonneg {x y : ℝ} (hy : 0 < y) (hx : 0 ≤ x) :
    0 ≤ jsRem x y ∧ jsRem x y < y := by
  unfold jsRem
  rw [jsTrunc_eq_floor (div_nonneg hx hy.le)]
  constructor
  · have := Int.floor_le (x / y)
    have h2 : y * (⌊x / y⌋ : ℝ) ≤ y * (x / y) := by
      exact mul_le_mul_of_nonneg_left this hy.le
    rw [mul_div_cancel₀ x hy.ne.symm] at h2
    linarith
  · have := Int.lt_floor_add_one (x / y)
    have h2 : y * (x / y) < y * ((⌊x / y⌋ : ℝ) + 1) :=
      mul_lt_mul_of_pos_left this hy
    rw [mul_div_cancel₀ x hy.ne.symm] at h2
    linarith

theorem jsRem_abs_lt {x y : ℝ} (hy : 0 < y) : |jsRem x y| < y := by
  rcases le_or_lt 0 x with hx | hx
  · obtain ⟨h1, h2⟩ := jsRem_mem_of_nonneg hy hx
    rw [abs_of_nonneg h1]; exact h2
  · unfold jsRem jsTrunc
    have hneg : ¬ 0 ≤ x / y := by
      simp only [not_le]
      exact div_neg_of_neg_of_pos hx hy
    simp only [hneg, if_false]
    push_cast
    obtain ⟨h1, h2⟩ := jsRem_mem_of_nonneg hy (x := -x) (by linarith)
    unfold jsRem at h1 h2
    rw [jsTrunc_eq_floor (div_nonneg (by linarith) hy.le)] at h1 h2
    rw [neg_div] at h1 h2
    rw [abs_lt]
    constructor <;> push_cast at h1 h2 ⊢ <;> nlinarith

theorem jsRem_int_mul (k : ℤ) {y : ℝ} (hy : y ≠ 0) :
    jsRem (y * k) y = 0 := by
  unfold jsRem
  rw [mul_div_cancel_left₀ _ hy, jsTrunc_intCast]
  ring

/-! ## Facts about `normalizeAngle` -/

namespace SalahUtils

theorem normalizeAngle_cases (x : ℝ) :
    normalizeAngle x =
      if 0 ≤ jsRem x 360 then jsRem x 360 else jsRem x 360 + 360 := by
  have habs := jsRem_abs_lt (x := x) (y := 360) (by norm_num)
  rw [abs_lt] at habs
  unfold normalizeAngle
  split
  · have h360 := jsRem_of_nonneg (x := jsRem x 360 + 360) (y := 360) 1
      (by norm_num) (by linarith) (by push_cast; linarith)
      (by push_cast; linarith [habs.2])
    rw [h360]; push_cast; ring
  · push_neg at *
    exact jsRem_self_of_nonneg (by norm_num) (by linarith [habs.1])
      (by linarith)

theorem normalizeAngle_mem (x : ℝ) :
    0 ≤ normalizeAngle x ∧ normalizeAngle x < 360 := by
  have habs := jsRem_abs_lt (x := x) (y := 360) (by norm_num)
  rw [abs_lt] at habs
  rw [normalizeAngle_cases]
  split
  · exact ⟨by assumption, habs.2⟩
  · push_neg at *
    constructor <;> linarith [habs.1]

theorem normalizeAngle_sub_int (x : ℝ) :
    ∃ m : ℤ, normalizeAngle x = x - 360 * m := by
  obtain ⟨k, hk⟩ := jsRem_eq_sub x 360
  rw [normalizeAngle_cases]
  split
  · exact ⟨k, hk⟩
  · refine ⟨k - 1, ?_⟩
    rw [hk]
    push_cast
    ring

theorem mod360_unique {a b : ℝ} (ha1 : 0 ≤ a) (ha2 : a < 360) (hb1 : 0 ≤ b)
    (hb2 : b < 360) (h : ∃ m : ℤ, a - b = 360 * m) : a = b := by
  obtain ⟨m, hm⟩ := h
  have h1 : (-1 : ℝ) < m := by
    have : (360 : ℝ) * m > -360 := by linarith
    nlinarith
  have h2 : (m : ℝ) < 1 := by
    have : (360 : ℝ) * m < 360 := by linarith
    nlinarith
  have hm0 : m = 0 := by
    have h1' : -1 < m := by exact_mod_cast h1
    have h2' : m < 1 := by exact_mod_cast h2
    omega
  rw [hm0] at hm
  push_cast at hm
  linarith

theorem normalizeAngle_window (k : ℤ) {x : ℝ} (h1 : 360 * k ≤ x)
    (h2 : x < 360 * (k + 1)) : normalizeAngle x = x - 360 * k := by
  obtain ⟨hm1, hm2⟩ := normalizeAngle_mem x
  obtain ⟨m, hm⟩ := normalizeAngle_sub_int x
  apply mod360_unique hm1 hm2 (by linarith) (by push_cast at h2 ⊢; linarith)
  exact ⟨k - m, by rw [hm]; push_cast; ring⟩

theorem normalizeAngle_self {x : ℝ} (h1 : 0 ≤ x) (h2 : x < 360) :
    normalizeAngle x = x := by
  have := normalizeAngle_window 0 (x := x) (by simpa) (by push_cast; simpa)
  simpa using this

end SalahUtils

/-! ## Congruence of trigonometric values under 360-degree shifts -/

theorem toRadians_add_int (x : ℝ) (m : ℤ) :
    toRadians (x + 360 * m) = toRadians x + m * (2 * Real.pi) := by
  unfold toRadians
  ring

theorem sin_toRadians_congr {a b : ℝ} (h : ∃ m : ℤ, a - b = 360 * m) :
    Real.sin (toRadians a) = Real.sin (toRadians b) := by
  obtain ⟨m, hm⟩ := h
  have ha : a = b + 360 * m := by linarith
  rw [ha, toRadians_add_int, Real.sin_add_int_mul_two_pi]

theorem cos_toRadians_congr {a b : ℝ} (h : ∃ m : ℤ, a - b = 360 * m) :
    Real.cos (toRadians a) = Real.cos (toRadians b) := by
  obtain ⟨m, hm⟩ := h
  have ha : a = b + 360 * m := by linarith
  rw [ha, toRadians_add_int, Real.cos_add_int_mul_two_pi]

theorem sin_two_toRadians_congr {a b : ℝ} (h : ∃ m : ℤ, a - b = 360 * m) :
    Real.sin (2 * toRadians a) = Real.sin (2 * toRadians b) := by
  obtain ⟨m, hm⟩ := h
  have ha : a = b + 360 * m := by linarith
  rw [ha, toRadians_add_int]
  have h2 : 2 * (toRadians b + m * (2 * Real.pi))
      = 2 * toRadians b + (2 * m : ℤ) * (2 * Real.pi) := by
    push_cast
    ring
  rw [h2, Real.sin_add_int_mul_two_pi]

/-! ## Bounds on the solar parameters of the normalized implementation -/

theorem SalahUtils.qDeg_mem (jd : ℝ) :
    0 ≤ SalahUtils.qDeg jd ∧ SalahUtils.qDeg jd < 360 :=
  SalahUtils.normalizeAngle_mem _

theorem SalahUtils.RAdeg_mem (jd : ℝ) :
    0 ≤ SalahUtils.RAdeg jd ∧ SalahUtils.RAdeg jd < 360 :=
  SalahUtils.normalizeAngle_mem _

theorem SalahUtils.eotRaw_bounds (jd : ℝ) :
    -24 < SalahUtils.eotRaw jd ∧ SalahUtils.eotRaw jd < 24 := by
  obtain ⟨hq1, hq2⟩ := SalahUtils.qDeg_mem jd
  obtain ⟨hr1, hr2⟩ := SalahUtils.RAdeg_mem jd
  unfold SalahUtils.eotRaw SalahUtils.RAhrs
  constructor <;> [linarith; linarith]

theorem SalahUtils.eot_mem (jd : ℝ) :
    -12 ≤ SalahUtils.equationOfTime jd ∧ SalahUtils.equationOfTime jd ≤ 12 := by
  obtain ⟨h1, h2⟩ := SalahUtils.eotRaw_bounds jd
  simp only [SalahUtils.equationOfTime]
  split_ifs <;> constructor <;> linarith

/-- The folded equation of time differs from the raw difference
`qDeg / 15 - RAhrs` by an integer multiple of 24. -/
theorem SalahUtils.eot_congr (jd : ℝ) :
    ∃ j : ℤ, SalahUtils.equationOfTime jd
      = SalahUtils.eotRaw jd + 24 * j := by
  simp only [SalahUtils.equationOfTime]
  split_ifs
  · exact ⟨0, by push_cast; ring⟩
  · exact ⟨-1, by push_cast; ring⟩
  · exact ⟨1, by push_cast; ring⟩
  · exact ⟨0, by push_cast; ring⟩

/-! ## Claim C10: latitude noninterference of Dhuhr -/

/-- C10: for any two latitudes and the same longitude and Julian date,
`calculatePrayerTimes` returns identical Dhuhr values: solar noon is
computed only from the equation of time and the longitude, never from the
latitude. -/
theorem C10_dhuhr_latitude_noninterference (lat1 lat2 lon jd : ℝ) :
    (SalahUtils.calculatePrayerTimesJD lat1 lon jd).Dhuhr
      = (SalahUtils.calculatePrayerTimesJD lat2 lon jd).Dhuhr := rfl

/-! ## Claim C9: range of the hour angle -/

/-- C9 counterexample: at latitude 60, declination 0 and target elevation
-90 the `acos` argument is -2, and `calculateHourAngle` returns the
JavaScript value `NaN` (modelled `none`), which is not a real number in
[0, π]; the claim "for every input the returned hour angle lies in
[0, π]" therefore fails. -/
theorem C9_counterexample :
    SalahUtils.calculateHourAngle 60 0 (-90) = none := by
  have h60 : toRadians 60 = Real.pi / 3 := by unfold toRadians; ring
  have h90 : toRadians (-90) = -(Real.pi / 2) := by unfold toRadians; ring
  simp only [SalahUtils.calculateHourAngle, mathAcos, h60, h90,
    Real.cos_zero, Real.sin_zero, Real.cos_pi_div_three, Real.sin_neg,
    Real.sin_pi_div_two]
  norm_num

/-- C9 amended: whenever `calculateHourAngle` returns a number (the `acos`
argument lies in [-1, 1] and the denominator is nonzero), that number lies
in [0, π]; on the remaining inputs the function returns `NaN`. -/
theorem C9_hour_angle_range (lat decl angle h : ℝ)
    (hh : SalahUtils.calculateHourAngle lat decl angle = some h) :
    0 ≤ h ∧ h ≤ Real.pi := by
  simp only [SalahUtils.calculateHourAngle, mathAcos] at hh
  split_ifs at hh
  rw [Option.some_inj] at hh
  subst hh
  exact ⟨Real.arccos_nonneg _, Real.arccos_le_pi _⟩

/-- Witness for C9: at latitude 0, declination 0 and elevation -15 the
hour angle is `arccos (sin (-15°))`, which lies in [0, π]. -/
theorem C9_hour_angle_range_witness :
    SalahUtils.calculateHourAngle 0 0 (-15)
        = some (Real.arccos (Real.sin (toRadians (-15)))) ∧
      0 ≤ Real.arccos (Real.sin (toRadians (-15)))
      ∧ Real.arccos (Real.sin (toRadians (-15))) ≤ Real.pi := by
  have heq : SalahUtils.calculateHourAngle 0 0 (-15)
      = some (Real.arccos (Real.sin (toRadians (-15)))) := by
    simp only [SalahUtils.calculateHourAngle, mathAcos, Real.cos_zero,
      Real.sin_zero, toRadians]
    rw [if_neg (by norm_num), if_pos]
    · norm_num
    · constructor
      · simpa using Real.neg_one_le_sin _
      · simpa using Real.sin_le_one _
  exact ⟨heq, C9_hour_angle_range 0 0 (-15) _ heq⟩

/-! ## Claim C1: behaviour on an out-of-range acos argument -/

/-- C1 counterexample: at latitude 0, declination π/3 and target elevation
-90 the `acos` argument `(sin(-90°) - sin(0°) sin(π/3)) / (cos(0°) cos(π/3))`
equals -2, outside [-1, 1], and `calculateHourAngle` silently returns the
JavaScript not-a-number value (modelled `none`) instead of any
distinguished failure result; `calculatePrayerTimes` propagates such `NaN`
values into its output record. -/
theorem C1_counterexample :
    (Real.sin (toRadians (-90))
        - Real.sin (toRadians 0) * Real.sin (Real.pi / 3))
        / (Real.cos (toRadians 0) * Real.cos (Real.pi / 3)) < -1 ∧
      SalahUtils.calculateHourAngle 0 (Real.pi / 3) (-90) = none := by
  have h90 : toRadians (-90) = -(Real.pi / 2) := by unfold toRadians; ring
  have h0 : toRadians 0 = 0 := by unfold toRadians; ring
  constructor
  · rw [h90, h0]
    simp [Real.cos_pi_div_three]
  · simp only [SalahUtils.calculateHourAngle, mathAcos, h90, h0,
      Real.cos_zero, Real.sin_zero, Real.cos_pi_div_three, Real.sin_neg,
      Real.sin_pi_div_two]
    norm_num

/-- C1 amended: whenever the `acos` argument falls outside [-1, 1] (with a
nonzero denominator), `calculateHourAngle` returns the JavaScript `NaN`
value (modelled `none`); no distinguished "undefined for this
date/location" failure is signalled by the code. -/
theorem C1_nan_on_domain_error (lat decl angle : ℝ)
    (hden : Real.cos (toRadians lat) * Real.cos decl ≠ 0)
    (hout : ¬(-1 ≤ (Real.sin (toRadians angle)
        - Real.sin (toRadians lat) * Real.sin decl)
        / (Real.cos (toRadians lat) * Real.cos decl) ∧
      (Real.sin (toRadians angle)
        - Real.sin (toRadians lat) * Real.sin decl)
        / (Real.cos (toRadians lat) * Real.cos decl) ≤ 1)) :
    SalahUtils.calculateHourAngle lat decl angle = none := by
  simp only [SalahUtils.calculateHourAngle, mathAcos]
  rw [if_neg hden, if_neg hout]

/-- Witness for C1: concrete inputs with nonzero denominator and an
out-of-range acos argument on which `calculateHourAngle` yields `NaN`. -/
theorem C1_nan_on_domain_error_witness :
    Real.cos (toRadians 80) * Real.cos (Real.pi / 3) ≠ 0 ∧
      ¬(-1 ≤ (Real.sin (toRadians (-90))
          - Real.sin (toRadians 80) * Real.sin (Real.pi / 3))
          / (Real.cos (toRadians 80) * Real.cos (Real.pi / 3)) ∧
        (Real.sin (toRadians (-90))
          - Real.sin (toRadians 80) * Real.sin (Real.pi / 3))
          / (Real.cos (toRadians 80) * Real.cos (Real.pi / 3)) ≤ 1) ∧
      SalahUtils.calculateHourAngle 80 (Real.pi / 3) (-90) = none := by
  have h90 : toRadians (-90) = -(Real.pi / 2) := by unfold toRadians; ring
  have h80 : toRadians 80 = 4 * Real.pi / 9 := by unfold toRadians; ring
  have hcos : 0 < Real.cos (4 * Real.pi / 9) := by
    apply Real.cos_pos_of_mem_Ioo
    constructor
    · have := Real.pi_pos
      linarith
    · have := Real.pi_pos
      linarith
  have hsin : 0 < Real.sin (4 * Real.pi / 9) := by
    apply Real.sin_pos_of_pos_of_lt_pi
    · have := Real.pi_pos
      linarith
    · have := Real.pi_pos
      linarith
  have hden : Real.cos (toRadians 80) * Real.cos (Real.pi / 3) ≠ 0 := by
    rw [h80, Real.cos_pi_div_three]
    positivity
  have harg : (Real.sin (toRadians (-90))
      - Real.sin (toRadians 80) * Real.sin (Real.pi / 3))
      / (Real.cos (toRadians 80) * Real.cos (Real.pi / 3)) < -1 := by
    rw [h90, h80, Real.cos_pi_div_three, Real.sin_pi_div_three]
    rw [Real.sin_neg, Real.sin_pi_div_two]
    rw [div_lt_iff (by positivity)]
    have hc1 : Real.cos (4 * Real.pi / 9) ≤ 1 := Real.cos_le_one _
    have hs3 : 0 < Real.sin (Real.pi / 3) := by
      rw [Real.sin_pi_div_three]
      positivity
    have h3 : (0:ℝ) < Real.sqrt 3 := by positivity
    nlinarith [hsin, hcos, hc1, h3, Real.sq_sqrt (by norm_num : (3:ℝ) ≥ 0),
      Real.sqrt_nonneg 3]
  have hout : ¬(-1 ≤ (Real.sin (toRadians (-90))
      - Real.sin (toRadians 80) * Real.sin (Real.pi / 3))
      / (Real.cos (toRadians 80) * Real.cos (Real.pi / 3)) ∧
    (Real.sin (toRadians (-90))
      - Real.sin (toRadians 80) * Real.sin (Real.pi / 3))
      / (Real.cos (toRadians 80) * Real.cos (Real.pi / 3)) ≤ 1) := by
    intro hc
    linarith [hc.1]
  exact ⟨hden, hout, C1_nan_on_domain_error 80 (Real.pi / 3) (-90) hden hout⟩

/-! ## Claims C2 and C5: the equation-of-time fold and normalization -/

/-- C2 amended: for every Julian Date the equation of time computed by
`calculateSolarParameters` lies in the closed interval [-12, 12] hours;
the endpoint -12 is attained at some far-epoch Julian Date, so the open
interval of the claim fails exactly at an endpoint. -/
theorem C2_eot_closed_bounds (jd : ℝ) :
    -12 ≤ SalahUtils.equationOfTime jd
      ∧ SalahUtils.equationOfTime jd ≤ 12 :=
  SalahUtils.eot_mem jd

/-- C5 amended: in the normalized implementation every position angle
(mean anomaly `gDeg`, mean longitude `qDeg`, ecliptic longitude `LDeg`,
right ascension `RAdeg`) is reduced into [0, 360) before use, and the
equation of time is range-folded by the two ±24 conditionals into the
closed interval [-12, 12] (not modulo-wrapped into [0, 24)); the
half-open interval (-12, 12] of the claim fails only at the attainable
endpoint -12. -/
theorem C5_normalization_discipline (jd : ℝ) :
    (0 ≤ SalahUtils.gDeg jd ∧ SalahUtils.gDeg jd < 360) ∧
      (0 ≤ SalahUtils.qDeg jd ∧ SalahUtils.qDeg jd < 360) ∧
      (0 ≤ SalahUtils.LDeg jd ∧ SalahUtils.LDeg jd < 360) ∧
      (0 ≤ SalahUtils.RAdeg jd ∧ SalahUtils.RAdeg jd < 360) ∧
      (-12 ≤ SalahUtils.equationOfTime jd
        ∧ SalahUtils.equationOfTime jd ≤ 12) :=
  ⟨SalahUtils.normalizeAngle_mem _, SalahUtils.normalizeAngle_mem _,
    SalahUtils.normalizeAngle_mem _, SalahUtils.normalizeAngle_mem _,
    SalahUtils.eot_mem jd⟩

/-! ## Hour-angle range helpers -/

theorem hourAngle_some_bounds {lat decl angle h : ℝ}
    (hh : SalahUtils.calculateHourAngle lat decl angle = some h) :
    0 ≤ h ∧ h ≤ Real.pi := by
  simp only [SalahUtils.calculateHourAngle, mathAcos] at hh
  split_ifs at hh
  rw [Option.some_inj] at hh
  subst hh
  exact ⟨Real.arccos_nonneg _, Real.arccos_le_pi _⟩

theorem toDegrees_div15_mem {h : ℝ} (h1 : 0 ≤ h) (h2 : h ≤ Real.pi) :
    0 ≤ toDegrees h / 15 ∧ toDegrees h / 15 ≤ 12 := by
  have hpi := Real.pi_pos
  unfold toDegrees
  constructor
  · positivity
  · rw [div_le_iff (by norm_num), div_le_iff hpi]
    nlinarith

/-! ## Claim C8: the Maghrib offset -/

theorem maghrib_fold {s : ℝ} (h1 : 0 ≤ s) (h2 : s < 24) :
    jsRem (s + 3 / 60 + 24) 24 = frac24 (s + 3 / 60) := by
  unfold frac24
  rcases lt_or_le (s + 3 / 60) 24 with hc | hc
  · rw [jsRem_self_of_nonneg (by norm_num) (by linarith) hc]
  · have hinner := jsRem_of_nonneg (x := s + 3 / 60) (y := 24) 1
      (by norm_num) (by linarith) (by push_cast; linarith)
      (by push_cast; linarith)
    push_cast at hinner
    rw [hinner]
    have houter := jsRem_of_nonneg (x := s + 3 / 60 - 24 * 1 + 24) (y := 24) 1
      (by norm_num) (by linarith) (by push_cast; linarith)
      (by push_cast; linarith)
    push_cast at houter
    have hlhs := jsRem_of_nonneg (x := s + 3 / 60 + 24) (y := 24) 2
      (by norm_num) (by linarith) (by push_cast; linarith)
      (by push_cast; linarith)
    push_cast at hlhs
    rw [houter, hlhs]
    ring

/-- C8: for every input on which the pipeline produces numbers, the
returned Maghrib equals `frac24 (Sunset + 3/60)`, the fixed 3-minute
offset after the returned Sunset, reduced into [0, 24); when Sunset is
`NaN` so is Maghrib. -/
theorem C8_maghrib_is_sunset_plus_offset (lat lon jd : ℝ) :
    (SalahUtils.calculatePrayerTimesJD lat lon jd).Maghrib
      = (SalahUtils.calculatePrayerTimesJD lat lon jd).Sunset.map
          (fun s => frac24 (s + 3 / 60)) := by
  simp only [SalahUtils.calculatePrayerTimesJD,
    SalahUtils.calculateSolarParameters]
  cases hHA : SalahUtils.calculateHourAngle lat
      (SalahUtils.declination jd) (-0.833) with
  | none => simp [hHA]
  | some h =>
    simp only [hHA, Option.map_some']
    rw [Option.some_inj]
    have hb := hourAngle_some_bounds hHA
    obtain ⟨hd1, hd2⟩ := toDegrees_div15_mem hb.1 hb.2
    set noon := jsRem (12 - SalahUtils.equationOfTime jd - lon / 15 + 24) 24
      with hnoon
    have hnabs := jsRem_abs_lt
      (x := 12 - SalahUtils.equationOfTime jd - lon / 15 + 24) (y := 24)
      (by norm_num)
    rw [abs_lt, ← hnoon] at hnabs
    have hop : 0 ≤ noon + toDegrees h / 15 + 24 := by linarith [hnabs.1]
    obtain ⟨hs1, hs2⟩ := jsRem_mem_of_nonneg (y := 24) (by norm_num) hop
    exact maghrib_fold hs1 hs2

/-! ## Claim C6: symmetry of the outputs around solar noon -/

/-- C6: when the hour angles are defined, `Dhuhr - Shuruq` and
`Sunset - Dhuhr` agree modulo 24 (they share the -0.833° threshold), and
`Dhuhr - Fajr` and `Isha - Dhuhr` agree modulo 24 (both use the 15°
threshold); the statement reduces each difference of differences with the
JavaScript remainder by 24 and obtains 0. -/
theorem C6_noon_symmetry (lat lon jd : ℝ)
    (hf : (SalahUtils.calculatePrayerTimesJD lat lon jd).Fajr.isSome)
    (hs : (SalahUtils.calculatePrayerTimesJD lat lon jd).Shuruq.isSome) :
    jsRem (((SalahUtils.calculatePrayerTimesJD lat lon jd).Dhuhr.getD 0
        - (SalahUtils.calculatePrayerTimesJD lat lon jd).Shuruq.getD 0)
      - ((SalahUtils.calculatePrayerTimesJD lat lon jd).Sunset.getD 0
        - (SalahUtils.calculatePrayerTimesJD lat lon jd).Dhuhr.getD 0)) 24
      = 0 ∧
    jsRem (((SalahUtils.calculatePrayerTimesJD lat lon jd).Dhuhr.getD 0
        - (SalahUtils.calculatePrayerTimesJD lat lon jd).Fajr.getD 0)
      - ((SalahUtils.calculatePrayerTimesJD lat lon jd).Isha.getD 0
        - (SalahUtils.calculatePrayerTimesJD lat lon jd).Dhuhr.getD 0)) 24
      = 0 := by
  simp only [SalahUtils.calculatePrayerTimesJD,
    SalahUtils.calculateSolarParameters] at hf hs ⊢
  cases hF : SalahUtils.calculateHourAngle lat
      (SalahUtils.declination jd) (-15) with
  | none => rw [hF] at hf; simp at hf
  | some hFa =>
    cases hS : SalahUtils.calculateHourAngle lat
        (SalahUtils.declination jd) (-0.833) with
    | none => rw [hS] at hs; simp at hs
    | some hSa =>
      simp only [hF, hS, Option.map_some', Option.getD_some]
      set noon := jsRem (12 - SalahUtils.equationOfTime jd - lon / 15 + 24) 24
      obtain ⟨kS, hkS⟩ := jsRem_eq_sub (noon - toDegrees hSa / 15 + 24) 24
      obtain ⟨kS2, hkS2⟩ := jsRem_eq_sub (noon + toDegrees hSa / 15 + 24) 24
      obtain ⟨kF, hkF⟩ := jsRem_eq_sub (noon - toDegrees hFa / 15 + 24) 24
      obtain ⟨kF2, hkF2⟩ := jsRem_eq_sub (noon + toDegrees hFa / 15 + 24) 24
      constructor
      · rw [hkS, hkS2]
        have hexpr : noon - (noon - toDegrees hSa / 15 + 24 - 24 * kS)
            - (noon + toDegrees hSa / 15 + 24 - 24 * kS2 - noon)
            = 24 * ((kS + kS2 - 2 : ℤ) : ℝ) := by
          push_cast
          ring
        rw [hexpr]
        exact jsRem_int_mul _ (by norm_num)
      · rw [hkF, hkF2]
        have hexpr : noon - (noon - toDegrees hFa / 15 + 24 - 24 * kF)
            - (noon + toDegrees hFa / 15 + 24 - 24 * kF2 - noon)
            = 24 * ((kF + kF2 - 2 : ℤ) : ℝ) := by
          push_cast
          ring
        rw [hexpr]
        exact jsRem_int_mul _ (by norm_num)

/-! ## Quadrant facts for the right-ascension `atan2` -/

theorem toRadians_strictMono : StrictMono toRadians := by
  intro a b hab
  unfold toRadians
  have hpi := Real.pi_pos
  nlinarith

theorem arg_quadrant4 {z : ℂ} (hre : 0 < z.re) (him : z.im < 0) :
    -(Real.pi / 2) < Complex.arg z ∧ Complex.arg z < 0 := by
  have hz : z ≠ 0 := by
    intro h
    rw [h] at him
    simp at him
  have habs : 0 < Complex.abs z := by
    simpa [Complex.abs.pos_iff] using hz
  have hsin : Real.sin (Complex.arg z) < 0 := by
    rw [Complex.sin_arg]
    exact div_neg_of_neg_of_pos him habs
  have hcos : 0 < Real.cos (Complex.arg z) := by
    rw [Complex.cos_arg hz]
    exact div_pos hre habs
  have hlow := Complex.neg_pi_lt_arg z
  have hhigh := Complex.arg_le_pi z
  have hneg : Complex.arg z < 0 := by
    by_contra hge
    push_neg at hge
    exact absurd (Real.sin_nonneg_of_nonneg_of_le_pi hge hhigh) (by linarith)
  refine ⟨?_, hneg⟩
  by_contra hle
  push_neg at hle
  have : Real.cos (Complex.arg z) ≤ 0 := by
    rw [← Real.cos_neg]
    apply Real.cos_nonpos_of_pi_div_two_le_of_le (by linarith)
    linarith [Real.pi_pos]
  linarith

theorem arg_quadrant3 {z : ℂ} (hre : z.re < 0) (him : z.im < 0) :
    -Real.pi < Complex.arg z ∧ Complex.arg z < -(Real.pi / 2) := by
  have hz : z ≠ 0 := by
    intro h
    rw [h] at him
    simp at him
  have habs : 0 < Complex.abs z := by
    simpa [Complex.abs.pos_iff] using hz
  have hsin : Real.sin (Complex.arg z) < 0 := by
    rw [Complex.sin_arg]
    exact div_neg_of_neg_of_pos him habs
  have hcos : Real.cos (Complex.arg z) < 0 := by
    rw [Complex.cos_arg hz]
    exact div_neg_of_neg_of_pos hre habs
  have hlow := Complex.neg_pi_lt_arg z
  have hhigh := Complex.arg_le_pi z
  have hneg : Complex.arg z < 0 := by
    by_contra hge
    push_neg at hge
    exact absurd (Real.sin_nonneg_of_nonneg_of_le_pi hge hhigh) (by linarith)
  refine ⟨hlow, ?_⟩
  by_contra hle
  push_neg at hle
  have : 0 ≤ Real.cos (Complex.arg z) :=
    Real.cos_nonneg_of_mem_Icc ⟨hle, by linarith⟩
  linarith

theorem sin_cos_of_L_Q1 {L : ℝ} (h1 : 0 < L) (h2 : L < 90) :
    0 < Real.sin (toRadians L) ∧ 0 < Real.cos (toRadians L) := by
  have hpi := Real.pi_pos
  have hx1 : 0 < toRadians L := by unfold toRadians; positivity
  have hx2 : toRadians L < Real.pi / 2 := by
    unfold toRadians
    nlinarith
  constructor
  · exact Real.sin_pos_of_pos_of_lt_pi hx1 (by linarith)
  · exact Real.cos_pos_of_mem_Ioo ⟨by linarith, hx2⟩

theorem sin_cos_of_L_Q2 {L : ℝ} (h1 : 90 < L) (h2 : L < 180) :
    0 < Real.sin (toRadians L) ∧ Real.cos (toRadians L) < 0 := by
  have hpi := Real.pi_pos
  have hx1 : Real.pi / 2 < toRadians L := by
    unfold toRadians
    nlinarith
  have hx2 : toRadians L < Real.pi := by
    unfold toRadians
    nlinarith
  constructor
  · exact Real.sin_pos_of_pos_of_lt_pi (by linarith) hx2
  · exact Real.cos_neg_of_pi_div_two_lt_of_lt hx1 (by linarith)

theorem sin_cos_of_L_Q4 {L : ℝ} (h1 : 270 < L) (h2 : L < 360) :
    Real.sin (toRadians L) < 0 ∧ 0 < Real.cos (toRadians L) := by
  have hpi := Real.pi_pos
  have hs : Real.sin (toRadians L) = Real.sin (toRadians (L - 360)) :=
    sin_toRadians_congr ⟨1, by push_cast; ring⟩
  have hc : Real.cos (toRadians L) = Real.cos (toRadians (L - 360)) :=
    cos_toRadians_congr ⟨1, by push_cast; ring⟩
  have hx1 : -(Real.pi / 2) < toRadians (L - 360) := by
    unfold toRadians
    nlinarith
  have hx2 : toRadians (L - 360) < 0 := by
    unfold toRadians
    nlinarith
  rw [hs, hc]
  constructor
  · exact Real.sin_neg_of_neg_of_neg_pi_lt hx2 (by linarith)
  · exact Real.cos_pos_of_mem_Ioo ⟨hx1, by linarith⟩

/-- From an ecliptic longitude in the fourth quadrant and a positive
obliquity cosine, the raw right ascension lies in (-90, 0). -/
theorem RAdegRaw_Q4 {jd : ℝ} (hL1 : 270 < SalahUtils.LDeg jd)
    (hL2 : SalahUtils.LDeg jd < 360)
    (hε : 0 < Real.cos (SalahUtils.epsilon jd)) :
    -90 < SalahUtils.RAdegRaw jd ∧ SalahUtils.RAdegRaw jd < 0 := by
  obtain ⟨hsin, hcos⟩ := sin_cos_of_L_Q4 hL1 hL2
  have hre : (0:ℝ) < Real.cos (toRadians (SalahUtils.LDeg jd)) := hcos
  have him : Real.cos (SalahUtils.epsilon jd)
      * Real.sin (toRadians (SalahUtils.LDeg jd)) < 0 :=
    mul_neg_of_pos_of_neg hε hsin
  obtain ⟨h1, h2⟩ := arg_quadrant4 (z := ⟨Real.cos (toRadians (SalahUtils.LDeg jd)),
    Real.cos (SalahUtils.epsilon jd)
      * Real.sin (toRadians (SalahUtils.LDeg jd))⟩) hre him
  unfold SalahUtils.RAdegRaw mathAtan2 toDegrees
  have hpi := Real.pi_pos
  constructor
  · rw [neg_lt, ← neg_div, div_lt_iff hpi]
    nlinarith
  · apply div_neg_of_neg_of_pos _ hpi
    nlinarith

/-- From an ecliptic longitude in the second quadrant and a negative
obliquity cosine, the raw right ascension lies in (-180, -90). -/
theorem RAdegRaw_Q2neg {jd : ℝ} (hL1 : 90 < SalahUtils.LDeg jd)
    (hL2 : SalahUtils.LDeg jd < 180)
    (hε : Real.cos (SalahUtils.epsilon jd) < 0) :
    -180 < SalahUtils.RAdegRaw jd ∧ SalahUtils.RAdegRaw jd < -90 := by
  obtain ⟨hsin, hcos⟩ := sin_cos_of_L_Q2 hL1 hL2
  have him : Real.cos (SalahUtils.epsilon jd)
      * Real.sin (toRadians (SalahUtils.LDeg jd)) < 0 :=
    mul_neg_of_neg_of_pos hε hsin
  obtain ⟨h1, h2⟩ := arg_quadrant3 (z := ⟨Real.cos (toRadians (SalahUtils.LDeg jd)),
    Real.cos (SalahUtils.epsilon jd)
      * Real.sin (toRadians (SalahUtils.LDeg jd))⟩) hcos him
  unfold SalahUtils.RAdegRaw mathAtan2 toDegrees
  have hpi := Real.pi_pos
  constructor
  · rw [neg_lt, ← neg_div, div_lt_iff hpi]
    nlinarith
  · rw [div_lt_iff hpi]
    nlinarith

/-- From an ecliptic longitude in the first quadrant and a negative
obliquity cosine, the raw right ascension lies in (-90, 0). -/
theorem RAdegRaw_Q1neg {jd : ℝ} (hL1 : 0 < SalahUtils.LDeg jd)
    (hL2 : SalahUtils.LDeg jd < 90)
    (hε : Real.cos (SalahUtils.epsilon jd) < 0) :
    -90 < SalahUtils.RAdegRaw jd ∧ SalahUtils.RAdegRaw jd < 0 := by
  obtain ⟨hsin, hcos⟩ := sin_cos_of_L_Q1 hL1 hL2
  have him : Real.cos (SalahUtils.epsilon jd)
      * Real.sin (toRadians (SalahUtils.LDeg jd)) < 0 :=
    mul_neg_of_neg_of_pos hε hsin
  obtain ⟨h1, h2⟩ := arg_quadrant4 (z := ⟨Real.cos (toRadians (SalahUtils.LDeg jd)),
    Real.cos (SalahUtils.epsilon jd)
      * Real.sin (toRadians (SalahUtils.LDeg jd))⟩) hcos him
  unfold SalahUtils.RAdegRaw mathAtan2 toDegrees
  have hpi := Real.pi_pos
  constructor
  · rw [neg_lt, ← neg_div, div_lt_iff hpi]
    nlinarith
  · apply div_neg_of_neg_of_pos _ hpi
    nlinarith

/-- A raw right ascension in [-360, 0) normalizes by adding 360. -/
theorem RAdeg_eq_raw_add_360 {jd : ℝ} (h1 : -360 ≤ SalahUtils.RAdegRaw jd)
    (h2 : SalahUtils.RAdegRaw jd < 0) :
    SalahUtils.RAdeg jd = SalahUtils.RAdegRaw jd + 360 := by
  unfold SalahUtils.RAdeg
  rw [SalahUtils.normalizeAngle_window (-1) (by push_cast; linarith)
    (by push_cast; linarith)]
  push_cast
  ring

/-- The perturbation `1.915 sin g + 0.02 sin 2g` is bounded by 1.935 in
absolute value. -/
theorem pert_bounds (jd : ℝ) :
    -1.935 ≤ 1.915 * Real.sin (toRadians (SalahUtils.gDeg jd))
        + 0.02 * Real.sin (2 * toRadians (SalahUtils.gDeg jd))
      ∧ 1.915 * Real.sin (toRadians (SalahUtils.gDeg jd))
        + 0.02 * Real.sin (2 * toRadians (SalahUtils.gDeg jd)) ≤ 1.935 := by
  have h1 := Real.neg_one_le_sin (toRadians (SalahUtils.gDeg jd))
  have h2 := Real.sin_le_one (toRadians (SalahUtils.gDeg jd))
  have h3 := Real.neg_one_le_sin (2 * toRadians (SalahUtils.gDeg jd))
  have h4 := Real.sin_le_one (2 * toRadians (SalahUtils.gDeg jd))
  constructor <;> nlinarith

/-! ## Concrete evaluation at the Julian Date 2451545 (J2000) -/

theorem qDeg_J2000 : SalahUtils.qDeg 2451545 = 280.459 := by
  have h : 280.459 + 0.98564736 * ((2451545 : ℝ) - 2451545.0) = 280.459 := by
    norm_num
  unfold SalahUtils.qDeg SalahUtils.daysJ2000
  rw [h]
  exact SalahUtils.normalizeAngle_self (by norm_num) (by norm_num)

theorem eps_J2000 : SalahUtils.epsilon 2451545 = toRadians 23.439 := by
  have h : 23.439 - 0.00000036 * ((2451545 : ℝ) - 2451545.0) = 23.439 := by
    norm_num
  unfold SalahUtils.epsilon SalahUtils.daysJ2000
  rw [h]

theorem cos_eps_J2000 :
    Real.sqrt 3 / 2 < Real.cos (SalahUtils.epsilon 2451545) := by
  rw [eps_J2000]
  have hpi := Real.pi_pos
  have h1 : (0:ℝ) ≤ toRadians 23.439 := by unfold toRadians; positivity
  have h2 : toRadians 23.439 < Real.pi / 6 := by
    unfold toRadians
    linarith
  calc Real.sqrt 3 / 2 = Real.cos (Real.pi / 6) := Real.cos_pi_div_six.symm
    _ < Real.cos (toRadians 23.439) :=
        Real.cos_lt_cos_of_nonneg_of_le_pi h1 (by linarith) h2

theorem cos_eps_J2000_pos : 0 < Real.cos (SalahUtils.epsilon 2451545) := by
  have h3 : (0:ℝ) < Real.sqrt 3 := Real.sqrt_pos.2 (by norm_num)
  linarith [cos_eps_J2000]

theorem sin_eps_J2000_lt_one :
    |Real.sin (SalahUtils.epsilon 2451545)| < 1 := by
  rw [eps_J2000]
  have hpi := Real.pi_pos
  have h1 : (0:ℝ) ≤ toRadians 23.439 := by unfold toRadians; positivity
  have h2 : toRadians 23.439 < Real.pi / 2 := by
    unfold toRadians
    linarith
  have hmono : Real.sin (toRadians 23.439) < Real.sin (Real.pi / 2) :=
    Real.sin_lt_sin_of_lt_of_le_pi_div_two (by linarith) le_rfl h2
  rw [Real.sin_pi_div_two] at hmono
  have hnn : 0 ≤ Real.sin (toRadians 23.439) :=
    Real.sin_nonneg_of_nonneg_of_le_pi h1 (by linarith)
  rw [abs_of_nonneg hnn]
  exact hmono

theorem L_J2000 : 278 < SalahUtils.LDeg 2451545 ∧ SalahUtils.LDeg 2451545 < 283 := by
  obtain ⟨hp1, hp2⟩ := pert_bounds 2451545
  unfold SalahUtils.LDeg
  rw [qDeg_J2000]
  rw [SalahUtils.normalizeAngle_self (by linarith) (by linarith)]
  constructor <;> linarith

theorem eotRaw_J2000 : -6 < SalahUtils.eotRaw 2451545 ∧ SalahUtils.eotRaw 2451545 < 1 := by
  obtain ⟨hL1, hL2⟩ := L_J2000
  obtain ⟨hR1, hR2⟩ := RAdegRaw_Q4 (by linarith) (by linarith) cos_eps_J2000_pos
  have hRA := RAdeg_eq_raw_add_360 (by linarith) hR2
  unfold SalahUtils.eotRaw SalahUtils.RAhrs
  rw [qDeg_J2000, hRA]
  constructor <;> linarith

theorem eot_J2000 : -6 < SalahUtils.equationOfTime 2451545
    ∧ SalahUtils.equationOfTime 2451545 < 1 := by
  obtain ⟨h1, h2⟩ := eotRaw_J2000
  simp only [SalahUtils.equationOfTime]
  rw [if_neg (by linarith : ¬(12 < SalahUtils.eotRaw 2451545))]
  rw [if_neg (by linarith : ¬(SalahUtils.eotRaw 2451545 < -12))]
  exact ⟨h1, h2⟩

/-! ## Declination bounds -/

theorem cos_declination_ge (jd : ℝ) :
    |Real.cos (SalahUtils.epsilon jd)| ≤ Real.cos (SalahUtils.declination jd) := by
  unfold SalahUtils.declination
  rw [Real.cos_arcsin]
  have hs1 := Real.neg_one_le_sin (toRadians (SalahUtils.LDeg jd))
  have hs2 := Real.sin_le_one (toRadians (SalahUtils.LDeg jd))
  have hsq := Real.sin_sq_add_cos_sq (SalahUtils.epsilon jd)
  calc |Real.cos (SalahUtils.epsilon jd)|
      = Real.sqrt ((Real.cos (SalahUtils.epsilon jd)) ^ 2) :=
        (Real.sqrt_sq_eq_abs _).symm
    _ ≤ Real.sqrt (1 - (Real.sin (SalahUtils.epsilon jd)
          * Real.sin (toRadians (SalahUtils.LDeg jd))) ^ 2) := by
        apply Real.sqrt_le_sqrt
        have hL2 : (Real.sin (toRadians (SalahUtils.LDeg jd))) ^ 2 ≤ 1 := by
          nlinarith
        have hkey : 0 ≤ (Real.sin (SalahUtils.epsilon jd)) ^ 2
            * (1 - (Real.sin (toRadians (SalahUtils.LDeg jd))) ^ 2) :=
          mul_nonneg (sq_nonneg _) (by linarith)
        nlinarith [hsq, hkey]

theorem abs_declination_lt {jd : ℝ}
    (h : |Real.sin (SalahUtils.epsilon jd)| < 1) :
    |SalahUtils.declination jd| < Real.pi / 2 := by
  have habsL : |Real.sin (toRadians (SalahUtils.LDeg jd))| ≤ 1 :=
    Real.abs_sin_le_one _
  have hprod : |Real.sin (SalahUtils.epsilon jd)
      * Real.sin (toRadians (SalahUtils.LDeg jd))| < 1 := by
    rw [abs_mul]
    calc |Real.sin (SalahUtils.epsilon jd)|
          * |Real.sin (toRadians (SalahUtils.LDeg jd))|
        ≤ |Real.sin (SalahUtils.epsilon jd)| * 1 := by
          apply mul_le_mul_of_nonneg_left habsL (abs_nonneg _)
      _ < 1 := by rw [mul_one]; exact h
  rw [abs_lt] at hprod
  unfold SalahUtils.declination
  rw [abs_lt]
  constructor
  · exact Real.neg_pi_div_two_lt_arcsin.2 hprod.1
  · exact Real.arcsin_lt_pi_div_two.2 hprod.2

theorem cos_declination_J2000 :
    1 / 2 < Real.cos (SalahUtils.declination 2451545) := by
  have h1 := cos_declination_ge 2451545
  have h2 := cos_eps_J2000
  have h3 : Real.cos (SalahUtils.epsilon 2451545)
      ≤ |Real.cos (SalahUtils.epsilon 2451545)| := le_abs_self _
  have h4 : (1:ℝ) < Real.sqrt 3 := by
    have : Real.sqrt 1 < Real.sqrt 3 :=
      Real.sqrt_lt_sqrt (by norm_num) (by norm_num)
    simpa using this
  linarith

theorem abs_declination_J2000 :
    |SalahUtils.declination 2451545| < Real.pi / 2 :=
  abs_declination_lt sin_eps_J2000_lt_one

/-! ## Definedness of the hour angles at latitude 0 -/

theorem mathAcos_some_bounds {x h : ℝ} (hh : mathAcos x = some h) :
    0 ≤ h ∧ h ≤ Real.pi := by
  unfold mathAcos at hh
  split_ifs at hh
  rw [Option.some_inj] at hh
  subst hh
  exact ⟨Real.arccos_nonneg _, Real.arccos_le_pi _⟩

theorem mathAcos_isSome {x : ℝ} (h1 : -1 ≤ x) (h2 : x ≤ 1) :
    (mathAcos x).isSome := by
  unfold mathAcos
  rw [if_pos ⟨h1, h2⟩]
  rfl

theorem hourAngle_lat0_isSome {d a : ℝ} (hcd : 1 / 2 < Real.cos d)
    (ha1 : 0 < a) (ha2 : a ≤ 15) :
    (SalahUtils.calculateHourAngle 0 d (-a)).isSome := by
  have hpi := Real.pi_pos
  have h0 : toRadians 0 = 0 := by unfold toRadians; ring
  have hna : toRadians (-a) = -(toRadians a) := by unfold toRadians; ring
  have hx0 : 0 ≤ toRadians a := by unfold toRadians; positivity
  have hmon : toRadians a < Real.pi / 6 := by
    unfold toRadians
    nlinarith
  have hnn : 0 ≤ Real.sin (toRadians a) := by
    apply Real.sin_nonneg_of_nonneg_of_le_pi hx0
    linarith
  have hlt : Real.sin (toRadians a) < 1 / 2 := by
    have := Real.sin_lt_sin_of_lt_of_le_pi_div_two
      (x := toRadians a) (y := Real.pi / 6) (by linarith) (by linarith) hmon
    rwa [Real.sin_pi_div_six] at this
  have hden : Real.cos (toRadians 0) * Real.cos d ≠ 0 := by
    rw [h0, Real.cos_zero, one_mul]
    intro hc
    linarith
  have hA : (Real.sin (toRadians (-a)) - Real.sin (toRadians 0) * Real.sin d)
      / (Real.cos (toRadians 0) * Real.cos d)
      = -(Real.sin (toRadians a) / Real.cos d) := by
    rw [h0, hna, Real.sin_neg, Real.sin_zero, Real.cos_zero]
    ring
  have hfrac : 0 ≤ Real.sin (toRadians a) / Real.cos d :=
    div_nonneg hnn (by linarith)
  have hfrac2 : Real.sin (toRadians a) / Real.cos d < 1 := by
    rw [div_lt_one (by linarith)]
    linarith
  simp only [SalahUtils.calculateHourAngle]
  rw [if_neg hden]
  apply mathAcos_isSome
  · rw [hA]
    linarith
  · rw [hA]
    linarith

theorem asrHA_lat0_isSome {d : ℝ} (hcd : 1 / 2 < Real.cos d)
    (hd : |d| < Real.pi / 2) :
    (if Real.cos (toRadians 0) * Real.cos d = 0 then (none : Option ℝ)
      else mathAcos ((Real.sin (Real.arctan
          (1 / (2 + Real.tan |toRadians 0 - d|)))
        - Real.sin (toRadians 0) * Real.sin d)
        / (Real.cos (toRadians 0) * Real.cos d))).isSome := by
  have h0 : toRadians 0 = 0 := by unfold toRadians; ring
  have habs : |toRadians 0 - d| = |d| := by rw [h0, zero_sub, abs_neg]
  rw [habs, h0, Real.cos_zero, Real.sin_zero]
  simp only [one_mul, zero_mul, sub_zero]
  rw [if_neg (show Real.cos d ≠ 0 by intro hc; linarith)]
  have htan : 0 ≤ Real.tan |d| :=
    Real.tan_nonneg_of_nonneg_of_le_pi_div_two (abs_nonneg _) hd.le
  have h2t : (0:ℝ) < 2 + Real.tan |d| := by linarith
  set u := 1 / (2 + Real.tan |d|) with hu
  have hu1 : 0 < u := by rw [hu]; positivity
  have hu2 : u ≤ 1 / 2 := by
    rw [hu, div_le_div_iff h2t (by norm_num)]
    linarith
  have hs : Real.sin (Real.arctan u) = u / Real.sqrt (1 + u ^ 2) :=
    Real.sin_arctan u
  have hsq1 : 1 ≤ Real.sqrt (1 + u ^ 2) := by
    have h1u : (1:ℝ) ≤ 1 + u ^ 2 := by nlinarith [sq_nonneg u]
    calc (1:ℝ) = Real.sqrt 1 := by simp
      _ ≤ Real.sqrt (1 + u ^ 2) := Real.sqrt_le_sqrt h1u
  have hsin1 : 0 < Real.sin (Real.arctan u) := by
    rw [hs]
    apply div_pos hu1
    linarith
  have hsin2 : Real.sin (Real.arctan u) ≤ 1 / 2 := by
    rw [hs]
    calc u / Real.sqrt (1 + u ^ 2) ≤ u := div_le_self hu1.le hsq1
      _ ≤ 1 / 2 := hu2
  apply mathAcos_isSome
  · have : 0 ≤ Real.sin (Real.arctan u) / Real.cos d :=
      div_nonneg hsin1.le (by linarith)
    linarith
  · rw [div_le_one (by linarith)]
    linarith

theorem fields_isSome_J2000 (lon : ℝ) :
    (SalahUtils.calculatePrayerTimesJD 0 lon 2451545).Fajr.isSome ∧
      (SalahUtils.calculatePrayerTimesJD 0 lon 2451545).Shuruq.isSome ∧
      (SalahUtils.calculatePrayerTimesJD 0 lon 2451545).Asr.isSome ∧
      (SalahUtils.calculatePrayerTimesJD 0 lon 2451545).Isha.isSome := by
  have hcd := cos_declination_J2000
  have hd := abs_declination_J2000
  have hF : (SalahUtils.calculateHourAngle 0
      (SalahUtils.declination 2451545) (-15)).isSome := by
    have := hourAngle_lat0_isSome (a := 15) hcd (by norm_num) (by norm_num)
    simpa using this
  have hS : (SalahUtils.calculateHourAngle 0
      (SalahUtils.declination 2451545) (-0.833)).isSome := by
    have := hourAngle_lat0_isSome (a := 0.833) hcd (by norm_num) (by norm_num)
    simpa using this
  obtain ⟨hFv, hFe⟩ := Option.isSome_iff_exists.mp hF
  obtain ⟨hSv, hSe⟩ := Option.isSome_iff_exists.mp hS
  have hA := asrHA_lat0_isSome hcd hd
  obtain ⟨hAv, hAe⟩ := Option.isSome_iff_exists.mp hA
  simp only [SalahUtils.calculatePrayerTimesJD,
    SalahUtils.calculateSolarParameters]
  rw [hFe, hSe, hAe]
  simp

theorem isSome_of_map {α β : Type} {o : Option α} {f : α → β}
    (h : (o.map f).isSome) : o.isSome := by
  cases o <;> simp_all

/-! ## Claim C4: the range invariant -/

/-- C4 counterexample: at latitude 0, longitude 720 and Julian Date
2451545 no acos argument leaves [-1, 1] (all four hour angles are
defined, so no domain error occurs), yet the returned Dhuhr value is
negative, because noon is computed as `(x + 24) % 24` with the
JavaScript remainder, which is negative for `x + 24 < 0`. -/
theorem C4_counterexample :
    (SalahUtils.calculatePrayerTimesJD 0 720 2451545).Fajr.isSome ∧
      (SalahUtils.calculatePrayerTimesJD 0 720 2451545).Shuruq.isSome ∧
      (SalahUtils.calculatePrayerTimesJD 0 720 2451545).Asr.isSome ∧
      (SalahUtils.calculatePrayerTimesJD 0 720 2451545).Isha.isSome ∧
      (SalahUtils.calculatePrayerTimesJD 0 720 2451545).Dhuhr.getD 0 < 0 := by
  obtain ⟨hf, hsh, hasr, hish⟩ := fields_isSome_J2000 720
  refine ⟨hf, hsh, hasr, hish, ?_⟩
  have heot := eot_J2000
  have h48 : (720:ℝ) / 15 = 48 := by norm_num
  simp only [SalahUtils.calculatePrayerTimesJD,
    SalahUtils.calculateSolarParameters, Option.getD_some]
  have hx1 : -24 < 12 - SalahUtils.equationOfTime 2451545 - 720 / 15 + 24 := by
    rw [h48]
    linarith [heot.2]
  have hx2 : 12 - SalahUtils.equationOfTime 2451545 - 720 / 15 + 24 < 0 := by
    rw [h48]
    linarith [heot.1]
  rw [jsRem_self_of_neg (by norm_num) hx1 hx2]
  exact hx2

/-- C4 amended: for every latitude, every longitude in the valid range
[-180, 180], and every Julian Date on which no domain error occurs (all
four hour-angle options carry numbers), each of the seven returned values
lies in [0, 24). -/
theorem C4_range_invariant (lat lon jd : ℝ) (hlon1 : -180 ≤ lon)
    (hlon2 : lon ≤ 180)
    (hf : (SalahUtils.calculatePrayerTimesJD lat lon jd).Fajr.isSome)
    (hsh : (SalahUtils.calculatePrayerTimesJD lat lon jd).Shuruq.isSome)
    (hasr : (SalahUtils.calculatePrayerTimesJD lat lon jd).Asr.isSome)
    (hish : (SalahUtils.calculatePrayerTimesJD lat lon jd).Isha.isSome) :
    (0 ≤ (SalahUtils.calculatePrayerTimesJD lat lon jd).Fajr.getD 0
      ∧ (SalahUtils.calculatePrayerTimesJD lat lon jd).Fajr.getD 0 < 24) ∧
    (0 ≤ (SalahUtils.calculatePrayerTimesJD lat lon jd).Shuruq.getD 0
      ∧ (SalahUtils.calculatePrayerTimesJD lat lon jd).Shuruq.getD 0 < 24) ∧
    (0 ≤ (SalahUtils.calculatePrayerTimesJD lat lon jd).Dhuhr.getD 0
      ∧ (SalahUtils.calculatePrayerTimesJD lat lon jd).Dhuhr.getD 0 < 24) ∧
    (0 ≤ (SalahUtils.calculatePrayerTimesJD lat lon jd).Asr.getD 0
      ∧ (SalahUtils.calculatePrayerTimesJD lat lon jd).Asr.getD 0 < 24) ∧
    (0 ≤ (SalahUtils.calculatePrayerTimesJD lat lon jd).Sunset.getD 0
      ∧ (SalahUtils.calculatePrayerTimesJD lat lon jd).Sunset.getD 0 < 24) ∧
    (0 ≤ (SalahUtils.calculatePrayerTimesJD lat lon jd).Maghrib.getD 0
      ∧ (SalahUtils.calculatePrayerTimesJD lat lon jd).Maghrib.getD 0 < 24) ∧
    (0 ≤ (SalahUtils.calculatePrayerTimesJD lat lon jd).Isha.getD 0
      ∧ (SalahUtils.calculatePrayerTimesJD lat lon jd).Isha.getD 0 < 24) := by
  simp only [SalahUtils.calculatePrayerTimesJD,
    SalahUtils.calculateSolarParameters] at hf hsh hasr hish ⊢
  have hf0 := isSome_of_map hf
  have hsh0 := isSome_of_map hsh
  have hasr0 := isSome_of_map hasr
  obtain ⟨hFv, hFe⟩ := Option.isSome_iff_exists.mp hf0
  obtain ⟨hSv, hSe⟩ := Option.isSome_iff_exists.mp hsh0
  obtain ⟨hAv, hAe⟩ := Option.isSome_iff_exists.mp hasr0
  have hFb := hourAngle_some_bounds hFe
  have hSb := hourAngle_some_bounds hSe
  have hAb : 0 ≤ hAv ∧ hAv ≤ Real.pi := by
    split_ifs at hAe
    exact mathAcos_some_bounds hAe
  obtain ⟨hdF1, hdF2⟩ := toDegrees_div15_mem hFb.1 hFb.2
  obtain ⟨hdS1, hdS2⟩ := toDegrees_div15_mem hSb.1 hSb.2
  obtain ⟨hdA1, hdA2⟩ := toDegrees_div15_mem hAb.1 hAb.2
  rw [hFe, hSe, hAe]
  simp only [Option.map_some', Option.getD_some]
  have heot := SalahUtils.eot_mem jd
  have hnop : 0 ≤ 12 - SalahUtils.equationOfTime jd - lon / 15 + 24 := by
    have hl : lon / 15 ≤ 12 := by linarith
    linarith [heot.1]
  obtain ⟨hn1, hn2⟩ := jsRem_mem_of_nonneg (y := 24) (by norm_num) hnop
  refine ⟨?_, ?_, ⟨hn1, hn2⟩, ?_, ?_, ?_, ?_⟩
  · exact jsRem_mem_of_nonneg (by norm_num) (by linarith)
  · exact jsRem_mem_of_nonneg (by norm_num) (by linarith)
  · exact jsRem_mem_of_nonneg (by norm_num) (by linarith)
  · exact jsRem_mem_of_nonneg (by norm_num) (by linarith)
  · obtain ⟨hv1, hv2⟩ := jsRem_mem_of_nonneg (y := 24) (by norm_num)
      (show 0 ≤ jsRem (12 - SalahUtils.equationOfTime jd - lon / 15 + 24) 24
        + toDegrees hSv / 15 + 24 by linarith)
    exact jsRem_mem_of_nonneg (by norm_num) (by linarith)
  · exact jsRem_mem_of_nonneg (by norm_num) (by linarith)

/-- Witness for C4: at latitude 0, longitude 0 and Julian Date 2451545
the longitude is in range, all four hour angles are defined, and all
seven outputs lie in [0, 24). -/
theorem C4_range_invariant_witness :
    ((-180:ℝ) ≤ 0 ∧ (0:ℝ) ≤ 180) ∧
    ((SalahUtils.calculatePrayerTimesJD 0 0 2451545).Fajr.isSome ∧
      (SalahUtils.calculatePrayerTimesJD 0 0 2451545).Shuruq.isSome ∧
      (SalahUtils.calculatePrayerTimesJD 0 0 2451545).Asr.isSome ∧
      (SalahUtils.calculatePrayerTimesJD 0 0 2451545).Isha.isSome) ∧
    ((0 ≤ (SalahUtils.calculatePrayerTimesJD 0 0 2451545).Fajr.getD 0
      ∧ (SalahUtils.calculatePrayerTimesJD 0 0 2451545).Fajr.getD 0 < 24) ∧
    (0 ≤ (SalahUtils.calculatePrayerTimesJD 0 0 2451545).Shuruq.getD 0
      ∧ (SalahUtils.calculatePrayerTimesJD 0 0 2451545).Shuruq.getD 0 < 24) ∧
    (0 ≤ (SalahUtils.calculatePrayerTimesJD 0 0 2451545).Dhuhr.getD 0
      ∧ (SalahUtils.calculatePrayerTimesJD 0 0 2451545).Dhuhr.getD 0 < 24) ∧
    (0 ≤ (SalahUtils.calculatePrayerTimesJD 0 0 2451545).Asr.getD 0
      ∧ (SalahUtils.calculatePrayerTimesJD 0 0 2451545).Asr.getD 0 < 24) ∧
    (0 ≤ (SalahUtils.calculatePrayerTimesJD 0 0 2451545).Sunset.getD 0
      ∧ (SalahUtils.calculatePrayerTimesJD 0 0 2451545).Sunset.getD 0 < 24) ∧
    (0 ≤ (SalahUtils.calculatePrayerTimesJD 0 0 2451545).Maghrib.getD 0
      ∧ (SalahUtils.calculatePrayerTimesJD 0 0 2451545).Maghrib.getD 0 < 24) ∧
    (0 ≤ (SalahUtils.calculatePrayerTimesJD 0 0 2451545).Isha.getD 0
      ∧ (SalahUtils.calculatePrayerTimesJD 0 0 2451545).Isha.getD 0 < 24)) := by
  obtain ⟨hf, hsh, hasr, hish⟩ := fields_isSome_J2000 0
  exact ⟨⟨by norm_num, by norm_num⟩, ⟨hf, hsh, hasr, hish⟩,
    C4_range_invariant 0 0 2451545 (by norm_num) (by norm_num) hf hsh hasr hish⟩

/-- Witness for C6: at latitude 0, longitude 0 and Julian Date 2451545
the Fajr and Shuruq hour angles are defined and the two modular
symmetry identities hold. -/
theorem C6_noon_symmetry_witness :
    (SalahUtils.calculatePrayerTimesJD 0 0 2451545).Fajr.isSome ∧
    (SalahUtils.calculatePrayerTimesJD 0 0 2451545).Shuruq.isSome ∧
    (jsRem (((SalahUtils.calculatePrayerTimesJD 0 0 2451545).Dhuhr.getD 0
        - (SalahUtils.calculatePrayerTimesJD 0 0 2451545).Shuruq.getD 0)
      - ((SalahUtils.calculatePrayerTimesJD 0 0 2451545).Sunset.getD 0
        - (SalahUtils.calculatePrayerTimesJD 0 0 2451545).Dhuhr.getD 0)) 24
      = 0 ∧
    jsRem (((SalahUtils.calculatePrayerTimesJD 0 0 2451545).Dhuhr.getD 0
        - (SalahUtils.calculatePrayerTimesJD 0 0 2451545).Fajr.getD 0)
      - ((SalahUtils.calculatePrayerTimesJD 0 0 2451545).Isha.getD 0
        - (SalahUtils.calculatePrayerTimesJD 0 0 2451545).Dhuhr.getD 0)) 24
      = 0) := by
  obtain ⟨hf, hsh, _, _⟩ := fields_isSome_J2000 0
  exact ⟨hf, hsh, C6_noon_symmetry 0 0 2451545 hf hsh⟩

/-! ## Helpers for the far-epoch intermediate-value argument -/

theorem sin_toRadians_pos {L : ℝ} (h1 : 0 < L) (h2 : L < 180) :
    0 < Real.sin (toRadians L) := by
  have hpi := Real.pi_pos
  apply Real.sin_pos_of_pos_of_lt_pi
  · unfold toRadians
    positivity
  · unfold toRadians
    nlinarith

theorem arg_neg_bounds {z : ℂ} (him : z.im < 0) :
    -Real.pi < Complex.arg z ∧ Complex.arg z < 0 := by
  refine ⟨Complex.neg_pi_lt_arg z, ?_⟩
  have hz : z ≠ 0 := by
    intro h
    rw [h] at him
    simp at him
  have habs : 0 < Complex.abs z := by
    simpa [Complex.abs.pos_iff] using hz
  have hsin : Real.sin (Complex.arg z) < 0 := by
    rw [Complex.sin_arg]
    exact div_neg_of_neg_of_pos him habs
  by_contra hge
  push_neg at hge
  exact absurd (Real.sin_nonneg_of_nonneg_of_le_pi hge (Complex.arg_le_pi z))
    (by linarith)

theorem cos_toRadians_neg_of_mem {x : ℝ} (h1 : -258 < x) (h2 : x < -102) :
    Real.cos (toRadians x) < 0 := by
  have hpi := Real.pi_pos
  have hneg : toRadians x = -(toRadians (-x)) := by unfold toRadians; ring
  rw [hneg, Real.cos_neg]
  apply Real.cos_neg_of_pi_div_two_lt_of_lt
  · unfold toRadians
    nlinarith [mul_pos (show (0:ℝ) < -x - 90 by linarith) Real.pi_pos]
  · unfold toRadians
    nlinarith [mul_pos (show (0:ℝ) < 270 + x by linarith) Real.pi_pos]

theorem toDegrees_bounds_of_arg {r : ℝ} (h1 : -Real.pi < r) (h2 : r < 0) :
    -180 < toDegrees r ∧ toDegrees r < 0 := by
  have hpi := Real.pi_pos
  unfold toDegrees
  constructor
  · rw [lt_div_iff hpi]
    nlinarith
  · apply div_neg_of_neg_of_pos _ hpi
    nlinarith

theorem toDegrees_bounds_q4 {r : ℝ} (h1 : -(Real.pi / 2) < r) (h2 : r < 0) :
    -90 < toDegrees r ∧ toDegrees r < 0 := by
  have hpi := Real.pi_pos
  unfold toDegrees
  constructor
  · rw [lt_div_iff hpi]
    nlinarith
  · apply div_neg_of_neg_of_pos _ hpi
    nlinarith

theorem toDegrees_bounds_q3 {r : ℝ} (h1 : -Real.pi < r)
    (h2 : r < -(Real.pi / 2)) :
    -180 < toDegrees r ∧ toDegrees r < -90 := by
  have hpi := Real.pi_pos
  unfold toDegrees
  constructor
  · rw [lt_div_iff hpi]
    nlinarith
  · rw [div_lt_iff hpi]
    nlinarith

/-! ## Values of the solar parameters on the interval [jdA, jdB] -/

theorem interval_qraw {jd : ℝ} (h1 : jdA ≤ jd) (h2 : jd ≤ jdB) :
    360 * 1075298 + 80 ≤ 280.459 + 0.98564736 * (jd - 2451545.0) ∧
      280.459 + 0.98564736 * (jd - 2451545.0) ≤ 360 * 1075298 + 100 := by
  have hA : 280.459 + 0.98564736 * (jdA - 2451545.0)
      = 360 * 1075298 + 80 := by
    unfold jdA
    norm_num
  have hB : 280.459 + 0.98564736 * (jdB - 2451545.0)
      = 360 * 1075298 + 100 := by
    unfold jdB
    norm_num
  constructor <;> linarith

theorem interval_qDeg {jd : ℝ} (h1 : jdA ≤ jd) (h2 : jd ≤ jdB) :
    SalahUtils.qDeg jd
      = 280.459 + 0.98564736 * (jd - 2451545.0) - 360 * 1075298 := by
  obtain ⟨hq1, hq2⟩ := interval_qraw h1 h2
  unfold SalahUtils.qDeg SalahUtils.daysJ2000
  rw [SalahUtils.normalizeAngle_window 1075298 (by push_cast; linarith)
    (by push_cast; linarith)]
  push_cast
  ring

theorem interval_LDeg {jd : ℝ} (h1 : jdA ≤ jd) (h2 : jd ≤ jdB) :
    SalahUtils.LDeg jd
        = 280.459 + 0.98564736 * (jd - 2451545.0) - 360 * 1075298
          + 1.915 * Real.sin (toRadians (SalahUtils.gDeg jd))
          + 0.02 * Real.sin (2 * toRadians (SalahUtils.gDeg jd)) ∧
      78 < SalahUtils.LDeg jd ∧ SalahUtils.LDeg jd < 102 := by
  obtain ⟨hq1, hq2⟩ := interval_qraw h1 h2
  obtain ⟨hp1, hp2⟩ := pert_bounds jd
  have hqd := interval_qDeg h1 h2
  unfold SalahUtils.LDeg
  rw [hqd]
  rw [SalahUtils.normalizeAngle_self (by linarith) (by linarith)]
  refine ⟨by ring, by linarith, by linarith⟩

theorem interval_epsdeg {jd : ℝ} (h1 : jdA ≤ jd) (h2 : jd ≤ jdB) :
    -258 < 23.439 - 0.00000036 * (jd - 2451545.0) ∧
      23.439 - 0.00000036 * (jd - 2451545.0) < -102 := by
  have hA1 : -258 < 23.439 - 0.00000036 * (jdA - 2451545.0) := by
    unfold jdA
    norm_num
  have hA2 : 23.439 - 0.00000036 * (jdA - 2451545.0) < -102 := by
    unfold jdA
    norm_num
  have hB1 : -258 < 23.439 - 0.00000036 * (jdB - 2451545.0) := by
    unfold jdB
    norm_num
  have hB2 : 23.439 - 0.00000036 * (jdB - 2451545.0) < -102 := by
    unfold jdB
    norm_num
  constructor <;> linarith

theorem interval_cos_eps {jd : ℝ} (h1 : jdA ≤ jd) (h2 : jd ≤ jdB) :
    Real.cos (SalahUtils.epsilon jd) < 0 := by
  obtain ⟨he1, he2⟩ := interval_epsdeg h1 h2
  unfold SalahUtils.epsilon SalahUtils.daysJ2000
  exact cos_toRadians_neg_of_mem he1 he2

theorem interval_RAdeg {jd : ℝ} (h1 : jdA ≤ jd) (h2 : jd ≤ jdB) :
    SalahUtils.RAdeg jd
      = toDegrees (Complex.arg
          ⟨Real.cos (toRadians (SalahUtils.LDeg jd)),
            Real.cos (SalahUtils.epsilon jd)
              * Real.sin (toRadians (SalahUtils.LDeg jd))⟩) + 360 := by
  obtain ⟨_, hL1, hL2⟩ := interval_LDeg h1 h2
  have hsin := sin_toRadians_pos (L := SalahUtils.LDeg jd) (by linarith)
    (by linarith)
  have him : Real.cos (SalahUtils.epsilon jd)
      * Real.sin (toRadians (SalahUtils.LDeg jd)) < 0 :=
    mul_neg_of_neg_of_pos (interval_cos_eps h1 h2) hsin
  obtain ⟨ha1, ha2⟩ := arg_neg_bounds
    (z := ⟨Real.cos (toRadians (SalahUtils.LDeg jd)),
      Real.cos (SalahUtils.epsilon jd)
        * Real.sin (toRadians (SalahUtils.LDeg jd))⟩) him
  obtain ⟨hd1, hd2⟩ := toDegrees_bounds_of_arg ha1 ha2
  have hraw : SalahUtils.RAdegRaw jd
      = toDegrees (Complex.arg
          ⟨Real.cos (toRadians (SalahUtils.LDeg jd)),
            Real.cos (SalahUtils.epsilon jd)
              * Real.sin (toRadians (SalahUtils.LDeg jd))⟩) := rfl
  rw [← hraw] at hd1 hd2
  rw [RAdeg_eq_raw_add_360 (by linarith) (by linarith), hraw]

theorem interval_eotRaw_eq {jd : ℝ} (h1 : jdA ≤ jd) (h2 : jd ≤ jdB) :
    SalahUtils.eotRaw jd
      = (280.459 + 0.98564736 * (jd - 2451545.0) - 360 * 1075298) / 15
        - (toDegrees (Complex.arg
            ⟨Real.cos (toRadians (SalahUtils.LDeg jd)),
              Real.cos (SalahUtils.epsilon jd)
                * Real.sin (toRadians (SalahUtils.LDeg jd))⟩) + 360) / 15 := by
  unfold SalahUtils.eotRaw SalahUtils.RAhrs
  rw [interval_qDeg h1 h2, interval_RAdeg h1 h2]

theorem interval_L_eq_raw {jd : ℝ} (h1 : jdA ≤ jd) (h2 : jd ≤ jdB) :
    SalahUtils.LDeg jd
      = 280.459 + 0.98564736 * (jd - 2451545.0) - 360 * 1075298
        + 1.915 * Real.sin (toRadians
            (357.529 + 0.98560028 * (jd - 2451545.0)))
        + 0.02 * Real.sin (2 * toRadians
            (357.529 + 0.98560028 * (jd - 2451545.0))) := by
  have hgd : SalahUtils.gDeg jd
      = SalahUtils.normalizeAngle
          (357.529 + 0.98560028 * (jd - 2451545.0)) := rfl
  obtain ⟨m, hm⟩ := SalahUtils.normalizeAngle_sub_int
    (357.529 + 0.98560028 * (jd - 2451545.0))
  have hg1 : Real.sin (toRadians (SalahUtils.gDeg jd))
      = Real.sin (toRadians (357.529 + 0.98560028 * (jd - 2451545.0))) := by
    apply sin_toRadians_congr
    exact ⟨-m, by rw [hgd, hm]; push_cast; ring⟩
  have hg2 : Real.sin (2 * toRadians (SalahUtils.gDeg jd))
      = Real.sin (2 * toRadians
          (357.529 + 0.98560028 * (jd - 2451545.0))) := by
    apply sin_two_toRadians_congr
    exact ⟨-m, by rw [hgd, hm]; push_cast; ring⟩
  rw [(interval_LDeg h1 h2).1, hg1, hg2]

theorem jdA_le_jdB : jdA ≤ jdB := by
  unfold jdA jdB
  norm_num

theorem eotRaw_jdA_le : SalahUtils.eotRaw jdA ≤ -12 := by
  have hAB := jdA_le_jdB
  have hA : 280.459 + 0.98564736 * (jdA - 2451545.0)
      = 360 * 1075298 + 80 := by
    unfold jdA
    norm_num
  obtain ⟨hp1, hp2⟩ := pert_bounds jdA
  have hLeq := (interval_LDeg (le_refl jdA) hAB).1
  have hL1 : 78 < SalahUtils.LDeg jdA := by
    rw [hLeq, hA]
    linarith
  have hL2 : SalahUtils.LDeg jdA < 82 := by
    rw [hLeq, hA]
    linarith
  obtain ⟨hsin, hcos⟩ := sin_cos_of_L_Q1 (L := SalahUtils.LDeg jdA)
    (by linarith) (by linarith)
  have him : Real.cos (SalahUtils.epsilon jdA)
      * Real.sin (toRadians (SalahUtils.LDeg jdA)) < 0 :=
    mul_neg_of_neg_of_pos (interval_cos_eps (le_refl jdA) hAB) hsin
  obtain ⟨haq1, haq2⟩ := arg_quadrant4
    (z := ⟨Real.cos (toRadians (SalahUtils.LDeg jdA)),
      Real.cos (SalahUtils.epsilon jdA)
        * Real.sin (toRadians (SalahUtils.LDeg jdA))⟩) hcos him
  obtain ⟨hd1, hd2⟩ := toDegrees_bounds_q4 haq1 haq2
  rw [interval_eotRaw_eq (le_refl jdA) hAB, hA]
  linarith

theorem eotRaw_jdB_ge : -12 ≤ SalahUtils.eotRaw jdB := by
  have hAB := jdA_le_jdB
  have hB : 280.459 + 0.98564736 * (jdB - 2451545.0)
      = 360 * 1075298 + 100 := by
    unfold jdB
    norm_num
  obtain ⟨hp1, hp2⟩ := pert_bounds jdB
  have hLeq := (interval_LDeg hAB (le_refl jdB)).1
  have hL1 : 98 < SalahUtils.LDeg jdB := by
    rw [hLeq, hB]
    linarith
  have hL2 : SalahUtils.LDeg jdB < 102 := by
    rw [hLeq, hB]
    linarith
  obtain ⟨hsin, hcos⟩ := sin_cos_of_L_Q2 (L := SalahUtils.LDeg jdB)
    (by linarith) (by linarith)
  have him : Real.cos (SalahUtils.epsilon jdB)
      * Real.sin (toRadians (SalahUtils.LDeg jdB)) < 0 :=
    mul_neg_of_neg_of_pos (interval_cos_eps hAB (le_refl jdB)) hsin
  obtain ⟨haq1, haq2⟩ := arg_quadrant3
    (z := ⟨Real.cos (toRadians (SalahUtils.LDeg jdB)),
      Real.cos (SalahUtils.epsilon jdB)
        * Real.sin (toRadians (SalahUtils.LDeg jdB))⟩) hcos him
  obtain ⟨hd1, hd2⟩ := toDegrees_bounds_q3 haq1 haq2
  rw [interval_eotRaw_eq hAB (le_refl jdB), hB]
  linarith

theorem continuous_toRadians_comp {f : ℝ → ℝ} (hf : Continuous f) :
    Continuous (fun x => toRadians (f x)) := by
  unfold toRadians
  exact (hf.mul continuous_const).div_const 180

theorem continuous_affineJD (a b : ℝ) :
    Continuous (fun x : ℝ => a + b * (x - 2451545.0)) :=
  continuous_const.add (continuous_const.mul (continuous_id.sub
    continuous_const))

set_option maxHeartbeats 1000000 in
/-- The normalized implementation's equation of time attains the value -12
exactly, at some Julian Date between `jdA` and `jdB` (an intermediate-value
argument: the raw difference `qDeg / 15 - RAhrs` is continuous there and
passes from below -12 to above -12). -/
theorem exists_eot_eq_neg_twelve :
    ∃ jd : ℝ, SalahUtils.equationOfTime jd = -12 := by
  have hAB := jdA_le_jdB
  set F : ℝ → ℝ := fun jd =>
    (280.459 + 0.98564736 * (jd - 2451545.0) - 360 * 1075298) / 15
      - (toDegrees (Complex.arg
          ⟨Real.cos (toRadians
              (280.459 + 0.98564736 * (jd - 2451545.0) - 360 * 1075298
                + 1.915 * Real.sin (toRadians
                    (357.529 + 0.98560028 * (jd - 2451545.0)))
                + 0.02 * Real.sin (2 * toRadians
                    (357.529 + 0.98560028 * (jd - 2451545.0))))),
            Real.cos (SalahUtils.epsilon jd)
              * Real.sin (toRadians
              (280.459 + 0.98564736 * (jd - 2451545.0) - 360 * 1075298
                + 1.915 * Real.sin (toRadians
                    (357.529 + 0.98560028 * (jd - 2451545.0)))
                + 0.02 * Real.sin (2 * toRadians
                    (357.529 + 0.98560028 * (jd - 2451545.0)))))⟩) + 360)
        / 15 with hFdef
  have hEqOn : Set.EqOn SalahUtils.eotRaw F (Set.Icc jdA jdB) := by
    intro jd hjd
    rw [Set.mem_Icc] at hjd
    rw [interval_eotRaw_eq hjd.1 hjd.2, interval_L_eq_raw hjd.1 hjd.2]
  have hcont : ContinuousOn F (Set.Icc jdA jdB) := by
    have hq'c : Continuous
        (fun jd : ℝ => 280.459 + 0.98564736 * (jd - 2451545.0)) :=
      continuous_affineJD _ _
    have hg'c : Continuous
        (fun jd : ℝ => 357.529 + 0.98560028 * (jd - 2451545.0)) :=
      continuous_affineJD _ _
    have hLrawc : Continuous (fun jd : ℝ =>
        280.459 + 0.98564736 * (jd - 2451545.0) - 360 * 1075298
          + 1.915 * Real.sin (toRadians
              (357.529 + 0.98560028 * (jd - 2451545.0)))
          + 0.02 * Real.sin (2 * toRadians
              (357.529 + 0.98560028 * (jd - 2451545.0)))) := by
      exact (((hq'c.sub continuous_const).add (continuous_const.mul
        (Real.continuous_sin.comp (continuous_toRadians_comp hg'c)))).add
        (continuous_const.mul (Real.continuous_sin.comp
          (continuous_const.mul (continuous_toRadians_comp hg'c)))))
    have hepsc : Continuous (fun jd : ℝ => SalahUtils.epsilon jd) := by
      unfold SalahUtils.epsilon SalahUtils.daysJ2000
      apply continuous_toRadians_comp
      exact continuous_const.sub (continuous_const.mul
        (continuous_id.sub continuous_const))
    have hzc : Continuous (fun jd : ℝ =>
        (⟨Real.cos (toRadians
            (280.459 + 0.98564736 * (jd - 2451545.0) - 360 * 1075298
              + 1.915 * Real.sin (toRadians
                  (357.529 + 0.98560028 * (jd - 2451545.0)))
              + 0.02 * Real.sin (2 * toRadians
                  (357.529 + 0.98560028 * (jd - 2451545.0))))),
          Real.cos (SalahUtils.epsilon jd)
            * Real.sin (toRadians
            (280.459 + 0.98564736 * (jd - 2451545.0) - 360 * 1075298
              + 1.915 * Real.sin (toRadians
                  (357.529 + 0.98560028 * (jd - 2451545.0)))
              + 0.02 * Real.sin (2 * toRadians
                  (357.529 + 0.98560028 * (jd - 2451545.0)))))⟩ : ℂ)) := by
      have hre : Continuous (fun jd : ℝ => Real.cos (toRadians
          (280.459 + 0.98564736 * (jd - 2451545.0) - 360 * 1075298
            + 1.915 * Real.sin (toRadians
                (357.529 + 0.98560028 * (jd - 2451545.0)))
            + 0.02 * Real.sin (2 * toRadians
                (357.529 + 0.98560028 * (jd - 2451545.0)))))) :=
        Real.continuous_cos.comp (continuous_toRadians_comp hLrawc)
      have him : Continuous (fun jd : ℝ =>
          Real.cos (SalahUtils.epsilon jd)
            * Real.sin (toRadians
            (280.459 + 0.98564736 * (jd - 2451545.0) - 360 * 1075298
              + 1.915 * Real.sin (toRadians
                  (357.529 + 0.98560028 * (jd - 2451545.0)))
              + 0.02 * Real.sin (2 * toRadians
                  (357.529 + 0.98560028 * (jd - 2451545.0)))))) :=
        (Real.continuous_cos.comp hepsc).mul
          (Real.continuous_sin.comp (continuous_toRadians_comp hLrawc))
      simp only [Complex.mk_eq_add_mul_I]
      exact (Complex.continuous_ofReal.comp hre).add
        ((Complex.continuous_ofReal.comp him).mul continuous_const)
    have hargc : ContinuousOn (Complex.arg ∘ fun jd : ℝ =>
        (⟨Real.cos (toRadians
            (280.459 + 0.98564736 * (jd - 2451545.0) - 360 * 1075298
              + 1.915 * Real.sin (toRadians
                  (357.529 + 0.98560028 * (jd - 2451545.0)))
              + 0.02 * Real.sin (2 * toRadians
                  (357.529 + 0.98560028 * (jd - 2451545.0))))),
          Real.cos (SalahUtils.epsilon jd)
            * Real.sin (toRadians
            (280.459 + 0.98564736 * (jd - 2451545.0) - 360 * 1075298
              + 1.915 * Real.sin (toRadians
                  (357.529 + 0.98560028 * (jd - 2451545.0)))
              + 0.02 * Real.sin (2 * toRadians
                  (357.529 + 0.98560028 * (jd - 2451545.0)))))⟩ : ℂ))
        (Set.Icc jdA jdB) := by
      intro jd hjd
      rw [Set.mem_Icc] at hjd
      have hLval : SalahUtils.LDeg jd
          = 280.459 + 0.98564736 * (jd - 2451545.0) - 360 * 1075298
            + 1.915 * Real.sin (toRadians
                (357.529 + 0.98560028 * (jd - 2451545.0)))
            + 0.02 * Real.sin (2 * toRadians
                (357.529 + 0.98560028 * (jd - 2451545.0))) :=
        interval_L_eq_raw hjd.1 hjd.2
      obtain ⟨_, hL1, hL2⟩ := interval_LDeg hjd.1 hjd.2
      have hsin : 0 < Real.sin (toRadians
          (280.459 + 0.98564736 * (jd - 2451545.0) - 360 * 1075298
            + 1.915 * Real.sin (toRadians
                (357.529 + 0.98560028 * (jd - 2451545.0)))
            + 0.02 * Real.sin (2 * toRadians
                (357.529 + 0.98560028 * (jd - 2451545.0))))) := by
        rw [← hLval]
        exact sin_toRadians_pos (by linarith) (by linarith)
      have himlt : (Real.cos (SalahUtils.epsilon jd)
          * Real.sin (toRadians
          (280.459 + 0.98564736 * (jd - 2451545.0) - 360 * 1075298
            + 1.915 * Real.sin (toRadians
                (357.529 + 0.98560028 * (jd - 2451545.0)))
            + 0.02 * Real.sin (2 * toRadians
                (357.529 + 0.98560028 * (jd - 2451545.0)))))) < 0 :=
        mul_neg_of_neg_of_pos (interval_cos_eps hjd.1 hjd.2) hsin
      have hslit : (⟨Real.cos (toRadians
          (280.459 + 0.98564736 * (jd - 2451545.0) - 360 * 1075298
            + 1.915 * Real.sin (toRadians
                (357.529 + 0.98560028 * (jd - 2451545.0)))
            + 0.02 * Real.sin (2 * toRadians
                (357.529 + 0.98560028 * (jd - 2451545.0))))),
          Real.cos (SalahUtils.epsilon jd)
            * Real.sin (toRadians
            (280.459 + 0.98564736 * (jd - 2451545.0) - 360 * 1075298
              + 1.915 * Real.sin (toRadians
                  (357.529 + 0.98560028 * (jd - 2451545.0)))
              + 0.02 * Real.sin (2 * toRadians
                  (357.529 + 0.98560028 * (jd - 2451545.0)))))⟩ : ℂ)
          ∈ Complex.slitPlane :=
        Complex.mem_slitPlane_iff.2 (Or.inr himlt.ne)
      apply ContinuousAt.comp_continuousWithinAt
      · exact Complex.continuousAt_arg hslit
      · exact hzc.continuousWithinAt
    rw [hFdef]
    apply ContinuousOn.sub
    · exact ((hq'c.sub continuous_const).div_const 15).continuousOn
    · apply ContinuousOn.div_const
      apply ContinuousOn.add _ continuousOn_const
      unfold toDegrees
      exact (hargc.mul continuousOn_const).div_const Real.pi
  have hconte : ContinuousOn SalahUtils.eotRaw (Set.Icc jdA jdB) :=
    hcont.congr hEqOn
  have hsub := intermediate_value_Icc hAB hconte
  have hmem : (-12:ℝ) ∈ Set.Icc (SalahUtils.eotRaw jdA)
      (SalahUtils.eotRaw jdB) := ⟨eotRaw_jdA_le, eotRaw_jdB_ge⟩
  obtain ⟨jd0, _, hval⟩ := hsub hmem
  refine ⟨jd0, ?_⟩
  simp only [SalahUtils.equationOfTime]
  rw [hval]
  norm_num

/-- C2 counterexample: the equation of time is not strictly inside
(-12, 12) for every Julian Date; at some Julian Date (between `jdA` and
`jdB`, in a far epoch where the obliquity polynomial makes cos ε
negative) it equals exactly -12. -/
theorem C2_counterexample :
    ¬ ∀ jd : ℝ, -12 < SalahUtils.equationOfTime jd
      ∧ SalahUtils.equationOfTime jd < 12 := by
  intro hall
  obtain ⟨jd0, h0⟩ := exists_eot_eq_neg_twelve
  have h := (hall jd0).1
  rw [h0] at h
  exact lt_irrefl _ h

/-- C5 counterexample: the claim's conjunct that the equation of time is
folded into the half-open interval (-12, 12] fails: at some Julian Date
the folded value is exactly -12, which is outside (-12, 12] (the
normalization conjuncts themselves hold, see the amended theorem). -/
theorem C5_counterexample :
    ¬ ∀ jd : ℝ,
      (0 ≤ SalahUtils.gDeg jd ∧ SalahUtils.gDeg jd < 360) ∧
      (0 ≤ SalahUtils.qDeg jd ∧ SalahUtils.qDeg jd < 360) ∧
      (0 ≤ SalahUtils.LDeg jd ∧ SalahUtils.LDeg jd < 360) ∧
      (0 ≤ SalahUtils.RAdeg jd ∧ SalahUtils.RAdeg jd < 360) ∧
      (-12 < SalahUtils.equationOfTime jd
        ∧ SalahUtils.equationOfTime jd ≤ 12) := by
  intro hall
  obtain ⟨jd0, h0⟩ := exists_eot_eq_neg_twelve
  have h := (hall jd0).2.2.2.2.1
  rw [h0] at h
  exact lt_irrefl _ h

/-! ## Relating the naive and the normalized equation of time -/

theorem jsRem_eq_normalize_of_nonneg {x : ℝ} (hx : 0 ≤ x) :
    jsRem x 360 = SalahUtils.normalizeAngle x := by
  obtain ⟨h1, _⟩ := jsRem_mem_of_nonneg (y := 360) (by norm_num) hx
  rw [SalahUtils.normalizeAngle_cases, if_pos h1]

theorem jsRem_normalize_congr (x : ℝ) :
    ∃ m : ℤ, jsRem x 360 - SalahUtils.normalizeAngle x = 360 * m := by
  obtain ⟨k, hk⟩ := jsRem_eq_sub x 360
  obtain ⟨m, hm⟩ := SalahUtils.normalizeAngle_sub_int x
  exact ⟨m - k, by rw [hk, hm]; push_cast; ring⟩

theorem sin_toRadians_jsRem_eq (x : ℝ) :
    Real.sin (toRadians (jsRem x 360))
      = Real.sin (toRadians (SalahUtils.normalizeAngle x)) :=
  sin_toRadians_congr (jsRem_normalize_congr x)

theorem cos_toRadians_jsRem_eq (x : ℝ) :
    Real.cos (toRadians (jsRem x 360))
      = Real.cos (toRadians (SalahUtils.normalizeAngle x)) :=
  cos_toRadians_congr (jsRem_normalize_congr x)

theorem sin_two_toRadians_jsRem_eq (x : ℝ) :
    Real.sin (2 * toRadians (jsRem x 360))
      = Real.sin (2 * toRadians (SalahUtils.normalizeAngle x)) :=
  sin_two_toRadians_congr (jsRem_normalize_congr x)

theorem RAdegRaw_mem (jd : ℝ) :
    -180 < SalahUtils.RAdegRaw jd ∧ SalahUtils.RAdegRaw jd ≤ 180 := by
  have hpi := Real.pi_pos
  unfold SalahUtils.RAdegRaw mathAtan2 toDegrees
  have h1 := Complex.neg_pi_lt_arg
    (⟨Real.cos (toRadians (SalahUtils.LDeg jd)),
      Real.cos (SalahUtils.epsilon jd)
        * Real.sin (toRadians (SalahUtils.LDeg jd))⟩ : ℂ)
  have h2 := Complex.arg_le_pi
    (⟨Real.cos (toRadians (SalahUtils.LDeg jd)),
      Real.cos (SalahUtils.epsilon jd)
        * Real.sin (toRadians (SalahUtils.LDeg jd))⟩ : ℂ)
  constructor
  · rw [lt_div_iff hpi]
    nlinarith
  · rw [div_le_iff hpi]
    nlinarith

/-- On every Julian Date whose raw mean-longitude value is nonnegative,
the naive equation of time equals the normalized one when the latter is
nonnegative, and exceeds it by exactly 24 hours when the latter is
negative. -/
theorem naive_eot_relation (jd : ℝ)
    (hq : 0 ≤ 280.459 + 0.98564736 * (jd - 2451545.0)) :
    (0 ≤ SalahUtils.equationOfTime jd →
      Naive.equationOfTime jd = SalahUtils.equationOfTime jd) ∧
    (SalahUtils.equationOfTime jd < 0 →
      Naive.equationOfTime jd = SalahUtils.equationOfTime jd + 24) := by
  have hqeq : Naive.q jd = SalahUtils.qDeg jd := by
    unfold Naive.q SalahUtils.qDeg SalahUtils.daysJ2000
    exact jsRem_eq_normalize_of_nonneg hq
  have hgs1 : Real.sin (Naive.g jd)
      = Real.sin (toRadians (SalahUtils.gDeg jd)) := by
    unfold Naive.g SalahUtils.gDeg SalahUtils.daysJ2000
    exact sin_toRadians_jsRem_eq _
  have hgs2 : Real.sin (2 * Naive.g jd)
      = Real.sin (2 * toRadians (SalahUtils.gDeg jd)) := by
    unfold Naive.g SalahUtils.gDeg SalahUtils.daysJ2000
    exact sin_two_toRadians_jsRem_eq _
  have hLs : Real.sin (toRadians (Naive.L jd))
      = Real.sin (toRadians (SalahUtils.LDeg jd)) := by
    unfold Naive.L SalahUtils.LDeg
    rw [hqeq, hgs1, hgs2]
    exact sin_toRadians_jsRem_eq _
  have hLc : Real.cos (toRadians (Naive.L jd))
      = Real.cos (toRadians (SalahUtils.LDeg jd)) := by
    unfold Naive.L SalahUtils.LDeg
    rw [hqeq, hgs1, hgs2]
    exact cos_toRadians_jsRem_eq _
  have hRA : Naive.RA jd = SalahUtils.RAdegRaw jd / 15 := by
    unfold Naive.RA SalahUtils.RAdegRaw Naive.epsilon SalahUtils.epsilon
      SalahUtils.daysJ2000
    rw [hLs, hLc]
  have heN : Naive.equationOfTime jd
      = jsRem (SalahUtils.qDeg jd / 15 - SalahUtils.RAdegRaw jd / 15 + 24)
          24 := by
    unfold Naive.equationOfTime
    rw [hqeq, hRA]
  obtain ⟨hq1, hq2⟩ := SalahUtils.qDeg_mem jd
  obtain ⟨hr1, hr2⟩ := RAdegRaw_mem jd
  have hop : 0 ≤ SalahUtils.qDeg jd / 15 - SalahUtils.RAdegRaw jd / 15
      + 24 := by
    linarith
  obtain ⟨hn1, hn2⟩ := jsRem_mem_of_nonneg (y := 24) (by norm_num) hop
  rw [← heN] at hn1 hn2
  obtain ⟨t, ht⟩ := jsRem_eq_sub
    (SalahUtils.qDeg jd / 15 - SalahUtils.RAdegRaw jd / 15 + 24) 24
  rw [← heN] at ht
  obtain ⟨jf, hjf⟩ := SalahUtils.eot_congr jd
  obtain ⟨m, hm⟩ := SalahUtils.normalizeAngle_sub_int (SalahUtils.RAdegRaw jd)
  have hRAdeg : SalahUtils.RAdeg jd
      = SalahUtils.RAdegRaw jd - 360 * m := hm
  have heraw : SalahUtils.eotRaw jd
      = SalahUtils.qDeg jd / 15 - SalahUtils.RAdeg jd / 15 := rfl
  obtain ⟨he1, he2⟩ := SalahUtils.eot_mem jd
  have hdiff2 : Naive.equationOfTime jd - SalahUtils.equationOfTime jd
      = 24 * (((1 : ℤ) - t - m - jf : ℤ) : ℝ) := by
    rw [ht, hjf, heraw, hRAdeg]
    push_cast
    ring
  constructor
  · intro hpos
    have hlow : (-1:ℝ) < (((1 : ℤ) - t - m - jf : ℤ) : ℝ) := by
      linarith
    have hhigh : ((((1 : ℤ) - t - m - jf : ℤ) : ℝ)) < 1 := by
      linarith
    have hM : ((1 : ℤ) - t - m - jf) = 0 := by
      have hl : (-1 : ℤ) < 1 - t - m - jf := by exact_mod_cast hlow
      have hh : (1 - t - m - jf : ℤ) < 1 := by exact_mod_cast hhigh
      omega
    rw [hM] at hdiff2
    push_cast at hdiff2
    linarith
  · intro hneg
    have hlow : (0:ℝ) < (((1 : ℤ) - t - m - jf : ℤ) : ℝ) := by
      linarith
    have hhigh : ((((1 : ℤ) - t - m - jf : ℤ) : ℝ)) < 2 := by
      linarith
    have hM : ((1 : ℤ) - t - m - jf) = 1 := by
      have hl : (0 : ℤ) < 1 - t - m - jf := by exact_mod_cast hlow
      have hh : (1 - t - m - jf : ℤ) < 2 := by exact_mod_cast hhigh
      omega
    rw [hM] at hdiff2
    push_cast at hdiff2
    linarith

theorem eotRaw_jdB_bounds :
    -34 / 3 < SalahUtils.eotRaw jdB ∧ SalahUtils.eotRaw jdB < -16 / 3 := by
  have hAB := jdA_le_jdB
  have hB : 280.459 + 0.98564736 * (jdB - 2451545.0)
      = 360 * 1075298 + 100 := by
    unfold jdB
    norm_num
  obtain ⟨hp1, hp2⟩ := pert_bounds jdB
  have hLeq := (interval_LDeg hAB (le_refl jdB)).1
  have hL1 : 98 < SalahUtils.LDeg jdB := by
    rw [hLeq, hB]
    linarith
  have hL2 : SalahUtils.LDeg jdB < 102 := by
    rw [hLeq, hB]
    linarith
  obtain ⟨hsin, hcos⟩ := sin_cos_of_L_Q2 (L := SalahUtils.LDeg jdB)
    (by linarith) (by linarith)
  have him : Real.cos (SalahUtils.epsilon jdB)
      * Real.sin (toRadians (SalahUtils.LDeg jdB)) < 0 :=
    mul_neg_of_neg_of_pos (interval_cos_eps hAB (le_refl jdB)) hsin
  obtain ⟨haq1, haq2⟩ := arg_quadrant3
    (z := ⟨Real.cos (toRadians (SalahUtils.LDeg jdB)),
      Real.cos (SalahUtils.epsilon jdB)
        * Real.sin (toRadians (SalahUtils.LDeg jdB))⟩) hcos him
  obtain ⟨hd1, hd2⟩ := toDegrees_bounds_q3 haq1 haq2
  rw [interval_eotRaw_eq hAB (le_refl jdB), hB]
  constructor <;> linarith

theorem eot_jdB_eq :
    SalahUtils.equationOfTime jdB = SalahUtils.eotRaw jdB := by
  obtain ⟨h1, h2⟩ := eotRaw_jdB_bounds
  simp only [SalahUtils.equationOfTime]
  rw [if_neg (by linarith : ¬(12 < SalahUtils.eotRaw jdB))]
  rw [if_neg (by linarith : ¬(SalahUtils.eotRaw jdB < -12))]

/-! ## Claim C3: naive versus normalized equation of time -/

/-- C3 counterexample: at the Julian Date `jdB` (proleptic Gregorian date
July 31, far from a year boundary; mean solar longitude exactly 100°,
a mid-year position) the naive modulo-based equation of time exceeds the
normalized one by exactly 24 hours, far beyond the claimed 1e-6
tolerance. -/
theorem C3_counterexample :
    Naive.equationOfTime jdB - SalahUtils.equationOfTime jdB = 24 ∧
      ¬ |Naive.equationOfTime jdB - SalahUtils.equationOfTime jdB|
          ≤ 1 / 1000000 := by
  have hq : 0 ≤ 280.459 + 0.98564736 * (jdB - 2451545.0) := by
    unfold jdB
    norm_num
  obtain ⟨h1, h2⟩ := eotRaw_jdB_bounds
  have hneg : SalahUtils.equationOfTime jdB < 0 := by
    rw [eot_jdB_eq]
    linarith
  have hd := (naive_eot_relation jdB hq).2 hneg
  have hdiff : Naive.equationOfTime jdB - SalahUtils.equationOfTime jdB
      = 24 := by
    rw [hd]
    ring
  refine ⟨hdiff, ?_⟩
  rw [hdiff]
  intro hc
  rw [abs_of_nonneg (by norm_num)] at hc
  norm_num at hc

/-- C3 amended: for every Julian Date whose raw mean-longitude value
`280.459 + 0.98564736 (jd - 2451545)` is nonnegative (all modern dates),
the naive and the normalized equation of time agree exactly when the
normalized value is nonnegative, and differ by exactly 24 hours whenever
the normalized value is negative — regardless of the distance to a
calendar-year boundary; they never differ by a small nonzero amount. -/
theorem C3_naive_vs_normalized (jd : ℝ)
    (hq : 0 ≤ 280.459 + 0.98564736 * (jd - 2451545.0)) :
    (0 ≤ SalahUtils.equationOfTime jd →
      Naive.equationOfTime jd = SalahUtils.equationOfTime jd) ∧
    (SalahUtils.equationOfTime jd < 0 →
      Naive.equationOfTime jd = SalahUtils.equationOfTime jd + 24) :=
  naive_eot_relation jd hq

/-- Witness for C3: the Julian Date 2451545 satisfies the raw
mean-longitude hypothesis and the dichotomy holds there. -/
theorem C3_naive_vs_normalized_witness :
    (0 ≤ 280.459 + 0.98564736 * ((2451545 : ℝ) - 2451545.0)) ∧
    ((0 ≤ SalahUtils.equationOfTime 2451545 →
      Naive.equationOfTime 2451545 = SalahUtils.equationOfTime 2451545) ∧
    (SalahUtils.equationOfTime 2451545 < 0 →
      Naive.equationOfTime 2451545
        = SalahUtils.equationOfTime 2451545 + 24)) :=
  ⟨by norm_num, C3_naive_vs_normalized 2451545 (by norm_num)⟩

/-! ## Claim C7: input validation -/

/-- C7 counterexample: for a malformed date string, `calculatePrayerTimes`
does not reject the input; the computation proceeds on the `NaN` Julian
Date of the Invalid Date and a full seven-field record is returned (every
value the JavaScript `NaN`, modelled `none`). -/
theorem C7_counterexample :
    calculatePrayerTimes 0 0 "definitely-not-a-date"
      = ⟨none, none, none, none, none, none, none⟩ := by
  have h : jsNewDate "definitely-not-a-date" = none := by decide
  unfold calculatePrayerTimes
  rw [h]

/-- C7 amended: the source performs no input validation at all: for every
date string the host parse rejects (Invalid Date, i.e. `NaN` time value),
`calculatePrayerTimes` still returns a full record whose seven values are
all `NaN`; nothing fails fast, and out-of-range coordinates are likewise
never rejected. -/
theorem C7_no_validation (lat lon : ℝ) (s : String)
    (h : jsNewDate s = none) :
    calculatePrayerTimes lat lon s
      = ⟨none, none, none, none, none, none, none⟩ := by
  unfold calculatePrayerTimes
  rw [h]

/-- Witness for C7: the malformed string "garbage" parses to an Invalid
Date and the returned record has `NaN` in all seven fields. -/
theorem C7_no_validation_witness :
    jsNewDate "garbage" = none ∧
      calculatePrayerTimes 0 0 "garbage"
        = ⟨none, none, none, none, none, none, none⟩ := by
  have h : jsNewDate "garbage" = none := by decide
  exact ⟨h, C7_no_validation 0 0 "garbage" h⟩

end
